import Mathlib

/-!
Verification of a segregated-free-list dynamic memory allocator (mm.c).

The allocator's heap is modelled byte-for-byte: memory is a map from byte
addresses to byte values, all header/footer accesses are 4-byte little-endian
word accesses (`GET`/`PUT`, mirroring the C macros of the same names), and
every routine of mm.c is translated into an explicit-state Lean function.
Pointers are natural-number addresses with 0 playing the role of NULL.
The external sbrk-style heap provider (memlib, out of scope of the
repository) is modelled from its contract: it grants a request while the
break stays below a fixed limit and otherwise returns the sentinel (void *)-1.
C loops over in-memory linked structures are translated with an explicit
fuel argument; the fuel never binds on well-formed inputs and the theorems
carry the corresponding hypotheses.
-/

namespace Malloc

/-- The sentinel (void *)-1 returned by mem_sbrk on refusal, as a 64-bit value. -/
def sbrkFail : Nat := 18446744073709551615

/-- Allocator state: byte memory, the provider's break and limit, and the two
globals heap_start and heap_listp of mm.c (0 = unset/NULL). -/
@[ext]
structure Heap where
  mem : Nat → Nat
  brk : Nat
  maxAddr : Nat
  heap_start : Nat
  heap_listp : Nat

/-- Point update of a byte map. -/
def upd (m : Nat → Nat) (a v : Nat) : Nat → Nat := fun x => if x = a then v else m x

/-- GET macro: read a 4-byte little-endian word; each cell is an 8-bit byte. -/
def GET (h : Heap) (p : Nat) : Nat :=
  h.mem p % 256 + 256 * (h.mem (p + 1) % 256) + 65536 * (h.mem (p + 2) % 256) +
    16777216 * (h.mem (p + 3) % 256)

/-- PUT macro: store a 4-byte little-endian word (unsigned int, hence mod 2^32). -/
def PUT (h : Heap) (p v : Nat) : Heap :=
  let m := upd (upd (upd (upd h.mem p (v % 256)) (p + 1) (v / 256 % 256))
    (p + 2) (v / 65536 % 256)) (p + 3) (v / 16777216 % 256)
  { h with mem := m }

/-- PACK macro: (size) | (alloc). -/
def PACK (size alloc : Nat) : Nat := size ||| alloc

/-- GET_SIZE macro: GET(p) & ~0x7 on 32-bit words. -/
def GET_SIZE (h : Heap) (p : Nat) : Nat := GET h p &&& 4294967288

/-- GET_ALLOC macro: GET(p) & 0x1. -/
def GET_ALLOC (h : Heap) (p : Nat) : Nat := GET h p &&& 1

/-- GET_PREV_ALLOC macro: GET(p) & 0x2. -/
def GET_PREV_ALLOC (h : Heap) (p : Nat) : Nat := GET h p &&& 2

/-- HDRP macro: bp - WSIZE. -/
def HDRP (bp : Nat) : Nat := bp - 4

/-- FTRP macro: bp + GET_SIZE(HDRP(bp)) - DSIZE. -/
def FTRP (h : Heap) (bp : Nat) : Nat := bp + GET_SIZE h (HDRP bp) - 8

/-- NEXT_BLKP macro. -/
def NEXT_BLKP (h : Heap) (bp : Nat) : Nat := bp + GET_SIZE h (bp - 4)

/-- PREV_BLKP macro (reads the previous block's footer at bp - DSIZE). -/
def PREV_BLKP (h : Heap) (bp : Nat) : Nat := bp - GET_SIZE h (bp - 8)

/-- PRED macro: predecessor offset stored in the first word of a free block. -/
def PRED (h : Heap) (bp : Nat) : Nat := GET h bp

/-- SUCC macro: successor offset stored in the second word of a free block. -/
def SUCC (h : Heap) (bp : Nat) : Nat := GET h (bp + 4)

/-- Unsigned 64-bit (size_t) subtraction. -/
def usub64 (a b : Nat) : Nat := (((a : Int) - (b : Int)) % 18446744073709551616).toNat

/-- get_addr of mm.c: actual address from a 32-bit offset (0 maps to NULL);
the addition is performed in size_t. -/
def get_addr (h : Heap) (offset : Nat) : Nat :=
  let o := offset % 4294967296
  if o = 0 then 0 else (o + h.heap_start) % 18446744073709551616

/-- get_offset of mm.c: (unsigned int)(bp - heap_start), 0 for NULL. -/
def get_offset (h : Heap) (bp : Nat) : Nat :=
  if bp ≠ 0 then (((bp : Int) - (h.heap_start : Int)) % 4294967296).toNat else 0

/-- The doubling loop of get_list: for (i = 192; i <= 49152; i *= 2).
The fuel 9 is the exact number of doublings from 192 to 49152; the loop
guard i <= 49152 is the authoritative exit and the fuel never binds. -/
def get_list_loop (size : Nat) : Nat → Nat → Nat → Nat
  | 0, _, _ => 19
  | fuel + 1, i, count =>
    if i ≤ 49152 then
      if size ≤ i ∧ i / 2 < size then 10 + (count + 1)
      else get_list_loop size fuel (i * 2) (count + 1)
    else 19

/-- get_list of mm.c; the parameter has C type unsigned int, and the small
branch computes (size - 16)/8 in unsigned arithmetic. -/
def get_list (size0 : Nat) : Nat :=
  let size := size0 % 4294967296
  if size ≤ 96 then (size + (4294967296 - 16)) % 4294967296 / 8
  else if 96 < size ∧ size ≤ 49152 then get_list_loop size 9 192 0
  else 19

/-- get_pred of mm.c. -/
def get_pred (h : Heap) (bp : Nat) : Nat :=
  let pr := PRED h bp
  if pr = 0 then 0 else get_addr h pr

/-- get_succ of mm.c. -/
def get_succ (h : Heap) (bp : Nat) : Nat :=
  let su := SUCC h bp
  if su = 0 then 0 else get_addr h su

/-- Address of the root slot of free list i: heap_listp + WSIZE*(i+1). -/
def rootAddr (h : Heap) (i : Nat) : Nat := h.heap_listp + 4 * (i + 1)

/-- add_start of mm.c: push a free block at the head of its class list. -/
def add_start (h : Heap) (bp : Nat) : Heap :=
  let i := get_list (GET_SIZE h (HDRP bp))
  let prev_head := get_addr h (GET h (rootAddr h i))
  let h1 := PUT h (rootAddr h i) (get_offset h bp)
  let h2 := PUT h1 bp 0
  let h3 := PUT h2 (bp + 4) (get_offset h2 prev_head)
  if prev_head ≠ 0 then PUT h3 prev_head (get_offset h3 bp) else h3

/-- del_list of mm.c: four-case splice removing bp from its class list. -/
def del_list (h : Heap) (bp : Nat) : Heap :=
  let i := get_list (GET_SIZE h (HDRP bp))
  let pred := get_pred h bp
  let succ := get_succ h bp
  if pred = 0 ∧ succ = 0 then
    PUT h (rootAddr h i) 0
  else if pred = 0 ∧ succ ≠ 0 then
    let h1 := PUT h (rootAddr h i) (get_offset h succ)
    PUT h1 succ 0
  else if pred ≠ 0 ∧ succ = 0 then
    PUT h (pred + 4) 0
  else
    let h1 := PUT h (pred + 4) (get_offset h succ)
    PUT h1 succ (get_offset h1 pred)

/-- coalesce of mm.c: four-case immediate merge with physical neighbors,
followed by clearing the prev_alloc bit of the block after the result. -/
def coalesce (h : Heap) (bp : Nat) : Heap × Nat :=
  let prev_alloc := GET_PREV_ALLOC h (HDRP bp)
  let next_alloc := GET_ALLOC h (HDRP (NEXT_BLKP h bp))
  let size := GET_SIZE h (HDRP bp)
  let hb : Heap × Nat :=
    if prev_alloc ≠ 0 ∧ next_alloc ≠ 0 then
      let h1 := PUT h (HDRP bp) (PACK size 2)
      let h2 := PUT h1 (FTRP h1 bp) (PACK size 2)
      (h2, bp)
    else if prev_alloc ≠ 0 ∧ next_alloc = 0 then
      let h1 := del_list h (NEXT_BLKP h bp)
      let size1 := size + GET_SIZE h1 (HDRP (NEXT_BLKP h1 bp))
      let h2 := PUT h1 (HDRP bp) (PACK size1 2)
      let h3 := PUT h2 (FTRP h2 bp) (PACK size1 2)
      (h3, bp)
    else if prev_alloc = 0 ∧ next_alloc ≠ 0 then
      let h1 := del_list h (PREV_BLKP h bp)
      let size1 := size + GET_SIZE h1 (HDRP (PREV_BLKP h1 bp))
      let h2 :=
        if GET_PREV_ALLOC h1 (HDRP (PREV_BLKP h1 bp)) ≠ 0 then
          let ha := PUT h1 (FTRP h1 bp) (PACK size1 2)
          PUT ha (HDRP (PREV_BLKP ha bp)) (PACK size1 2)
        else
          let ha := PUT h1 (FTRP h1 bp) (PACK size1 0)
          PUT ha (HDRP (PREV_BLKP ha bp)) (PACK size1 0)
      (h2, PREV_BLKP h2 bp)
    else
      let h1 := del_list h (PREV_BLKP h bp)
      let h2 := del_list h1 (NEXT_BLKP h1 bp)
      let size1 := size + GET_SIZE h2 (HDRP (PREV_BLKP h2 bp)) +
        GET_SIZE h2 (FTRP h2 (NEXT_BLKP h2 bp))
      let h3 :=
        if GET_PREV_ALLOC h2 (HDRP (PREV_BLKP h2 bp)) ≠ 0 then
          let ha := PUT h2 (HDRP (PREV_BLKP h2 bp)) (PACK size1 2)
          PUT ha (FTRP ha (NEXT_BLKP ha bp)) (PACK size1 2)
        else
          let ha := PUT h2 (HDRP (PREV_BLKP h2 bp)) (PACK size1 0)
          PUT ha (FTRP ha (NEXT_BLKP ha bp)) (PACK size1 0)
      (h3, PREV_BLKP h3 bp)
  let h4 := PUT hb.1 (HDRP (NEXT_BLKP hb.1 hb.2))
    (GET hb.1 (HDRP (NEXT_BLKP hb.1 hb.2)) &&& 4294967293)
  (h4, hb.2)

/-- place of mm.c: allocate asize bytes at free block bp, splitting when the
remainder is at least the minimum block size; sizes are size_t. -/
def place (h : Heap) (bp asize : Nat) : Heap :=
  let csize := GET_SIZE h (HDRP bp)
  if 16 ≤ usub64 csize asize then
    let h1 := del_list h bp
    let h2 :=
      if GET_PREV_ALLOC h1 (HDRP bp) ≠ 0 then PUT h1 (HDRP bp) (PACK asize 3)
      else PUT h1 (HDRP bp) (PACK asize 1)
    let bp2 := NEXT_BLKP h2 bp
    let h3 := PUT h2 (HDRP bp2) (PACK (usub64 csize asize) 2)
    let h4 := PUT h3 (FTRP h3 bp2) (PACK (usub64 csize asize) 2)
    let h5 := PUT h4 (HDRP (NEXT_BLKP h4 bp2))
      (GET h4 (HDRP (NEXT_BLKP h4 bp2)) &&& 4294967293)
    add_start h5 bp2
  else
    let h1 := del_list h bp
    let h2 :=
      if GET_PREV_ALLOC h1 (HDRP bp) ≠ 0 then PUT h1 (HDRP bp) (PACK csize 3)
      else PUT h1 (HDRP bp) (PACK csize 1)
    PUT h2 (HDRP (NEXT_BLKP h2 bp)) (PACK (GET h2 (HDRP (NEXT_BLKP h2 bp))) 2)

/-- Inner loop of find_fit: scan one class list head-to-tail.  The C loop
walks an in-memory linked list; the fuel argument only bounds the walk and
never binds on an acyclic list shorter than the supplied fuel. -/
def walk (h : Heap) (asize : Nat) : Nat → Nat → Option Nat
  | 0, _ => none
  | fuel + 1, bp =>
    if bp = 0 then none
    else if asize ≤ GET_SIZE h (HDRP bp) then some bp
    else walk h asize fuel (get_succ h bp)

/-- Outer loop of find_fit: classes list_no, list_no+1, ..., 19. -/
def find_fit_outer (h : Heap) (asize : Nat) : Nat → Nat → Option Nat
  | 0, _ => none
  | n + 1, i =>
    match walk h asize h.brk (get_addr h (GET h (rootAddr h i))) with
    | some bp => some bp
    | none => find_fit_outer h asize n (i + 1)

/-- find_fit of mm.c.  h.brk is passed as walk fuel: a consistent heap holds
fewer than brk blocks, so the fuel never binds there. -/
def find_fit (h : Heap) (asize : Nat) : Option Nat :=
  let list_no := get_list asize
  find_fit_outer h asize (20 - list_no) list_no

/-- Modelled from the spec: the external sbrk-style heap provider (memlib is
not part of the repository).  heap_extend(bytes) returns the first byte of
the newly appended region, or the sentinel (void *)-1 on refusal; the region
grows monotonically up to a fixed limit. -/
def mem_sbrk (h : Heap) (incr : Nat) : Nat × Heap :=
  if h.maxAddr < h.brk + incr then (sbrkFail, h)
  else (h.brk, { h with brk := h.brk + incr })

/-- extend_heap of mm.c. -/
def extend_heap (h : Heap) (words : Nat) : Heap × Nat :=
  let size := if words % 2 = 1 then (words + 1) * 4 else words * 4
  let pr := mem_sbrk h size
  let bp := pr.1
  let h1 := pr.2
  if bp = sbrkFail then (h1, 0)
  else
    let h2 :=
      if GET_PREV_ALLOC h1 (HDRP bp) ≠ 0 then
        let ha := PUT h1 (HDRP bp) (PACK size 2)
        PUT ha (FTRP ha bp) (PACK size 2)
      else
        let ha := PUT h1 (HDRP bp) (PACK size 0)
        PUT ha (FTRP ha bp) (PACK size 0)
    let h3 := PUT h2 (HDRP (NEXT_BLKP h2 bp)) (PACK 0 1)
    let cr := coalesce h3 bp
    let h5 := add_start cr.1 cr.2
    (h5, cr.2)

/-- The root-initialisation loop of mm_init (twenty list roots set to NULL). -/
def init_roots (h : Heap) (p : Nat) : Heap :=
  (List.range 20).foldl (fun hh i => PUT hh (p + (3 + i) * 4) 0) h

/-- mm_init of mm.c.  Note that the C code assigns heap_listp before testing
the sbrk result, so a refused request leaves heap_listp = (void *)-1. -/
def mm_init (h : Heap) : Heap × Int :=
  let pr := mem_sbrk h (24 * 4)
  let p := pr.1
  let h1 := pr.2
  let h2 := { h1 with heap_listp := p }
  if p = sbrkFail then (h2, -1)
  else
    let h3 := { h2 with heap_start := p }
    let h4 := PUT h3 p 0
    let h5 := PUT h4 (p + 1 * 4) (PACK 8 1)
    let h6 := PUT h5 (p + 2 * 4) (PACK 8 1)
    let h7 := init_roots h6 p
    let h8 := PUT h7 (p + 23 * 4) (PACK 0 3)
    let h9 := { h8 with heap_listp := h8.heap_listp + 2 * 4 }
    let er := extend_heap h9 (256 / 4)
    if er.2 = 0 then (er.1, -1) else (er.1, 0)

/-- Adjusted block size computed by mm_malloc (size_t arithmetic):
2*DSIZE for requests up to DSIZE+WSIZE, otherwise
DSIZE * ((size + WSIZE + DSIZE-1) / DSIZE). -/
def adjusted_size (size : Nat) : Nat :=
  if size ≤ 12 then 16
  else 8 * ((size + 4 + 7) % 18446744073709551616 / 8)

/-- Body of mm_malloc after the self-initialisation check. -/
def malloc_body (h : Heap) (size : Nat) : Heap × Nat :=
  if size = 0 then (h, 0)
  else
    let asize := adjusted_size size
    match find_fit h asize with
    | some bp => (place h bp asize, bp)
    | none =>
      let extendsize := max asize 256
      let er := extend_heap h (extendsize / 4)
      if er.2 = 0 then (er.1, 0)
      else (place er.1 er.2 asize, er.2)

/-- mm_malloc of mm.c (returns the new state and the pointer, 0 = NULL). -/
def mm_malloc (h : Heap) (size : Nat) : Heap × Nat :=
  let h1 := if h.heap_listp = 0 then (mm_init h).1 else h
  malloc_body h1 size

/-- Body of mm_free after the size read and the self-initialisation check. -/
def free_body (h : Heap) (bp size : Nat) : Heap :=
  let h1 :=
    if GET_PREV_ALLOC h (HDRP bp) ≠ 0 then
      let ha := PUT h (HDRP bp) (PACK size 2)
      PUT ha (FTRP ha bp) (PACK size 2)
    else
      let ha := PUT h (HDRP bp) (PACK size 0)
      PUT ha (FTRP ha bp) (PACK size 0)
  let cr := coalesce h1 bp
  add_start cr.1 cr.2

/-- mm_free of mm.c.  The block size is read before the self-initialisation
check, exactly as in the source. -/
def mm_free (h : Heap) (bp : Nat) : Heap :=
  if bp = 0 then h
  else
    let size := GET_SIZE h (HDRP bp)
    let h1 := if h.heap_listp = 0 then (mm_init h).1 else h
    free_body h1 bp size

/-- Byte-wise forward memcpy. -/
def memcpy (h : Heap) (dst src : Nat) : Nat → Heap
  | 0 => h
  | n + 1 =>
    let h1 := memcpy h dst src n
    { h1 with mem := upd h1.mem (dst + n) (h1.mem (src + n) % 256) }

/-- The byte count passed to memcpy by mm_realloc (its oldsize variable
after the capping test). -/
def realloc_copylen (h : Heap) (ptr size : Nat) : Nat :=
  let oldsize := GET_SIZE h (HDRP ptr)
  if size < oldsize then size else oldsize

/-- mm_realloc of mm.c. -/
def mm_realloc (h : Heap) (ptr size : Nat) : Heap × Nat :=
  if size = 0 then (mm_free h ptr, 0)
  else if ptr = 0 then mm_malloc h size
  else
    let mr := mm_malloc h size
    let h1 := mr.1
    let newptr := mr.2
    if newptr = 0 then (h1, 0)
    else
      let h2 := memcpy h1 newptr ptr (realloc_copylen h1 ptr size)
      let h3 := mm_free h2 ptr
      (h3, newptr)

/-! ### Specification-side vocabulary (free-list chains, separation, witnesses) -/

/-- Two 4-byte words at addresses a and b do not overlap. -/
def disj4 (a b : Nat) : Prop := a + 4 ≤ b ∨ b + 4 ≤ a

instance (a b : Nat) : Decidable (disj4 a b) := inferInstanceAs (Decidable (_ ∨ _))

/-- The 8-byte link areas of two free blocks do not overlap. -/
def sep8 (x y : Nat) : Prop := x + 8 ≤ y ∨ y + 8 ≤ x

instance (a b : Nat) : Decidable (sep8 a b) := inferInstanceAs (Decidable (_ ∨ _))

/-- A well-formed in-heap block pointer: strictly above heap_start, within a
32-bit offset of it, and representable in 64 bits. -/
def okPtr (h : Heap) (x : Nat) : Prop :=
  h.heap_start < x ∧ x - h.heap_start < 4294967296 ∧ x < 18446744073709551616

/-- The successor links starting at pointer p spell out exactly the list L
(and the last element's successor is NULL). -/
def chainFrom (h : Heap) : Nat → List Nat → Prop
  | p, [] => p = 0
  | p, x :: xs => p = x ∧ x ≠ 0 ∧ chainFrom h (get_succ h x) xs

instance instDecChainFrom (h : Heap) : (p : Nat) → (L : List Nat) → Decidable (chainFrom h p L)
  | p, [] => inferInstanceAs (Decidable (p = 0))
  | p, x :: xs =>
    letI := instDecChainFrom h (get_succ h x) xs
    inferInstanceAs (Decidable (p = x ∧ x ≠ 0 ∧ chainFrom h (get_succ h x) xs))

/-- Chain segment: the successor links starting at pointer p spell out L and
the successor of the last element is q (p = q when L is empty). -/
def chainSeg (h : Heap) : Nat → Nat → List Nat → Prop
  | p, q, [] => p = q
  | p, q, x :: xs => p = x ∧ x ≠ 0 ∧ chainSeg h (get_succ h x) q xs

/-- The predecessor links along L point backwards (q is the predecessor of
the first element). -/
def predFrom (h : Heap) : Nat → List Nat → Prop
  | _, [] => True
  | q, x :: xs => get_pred h x = q ∧ predFrom h x xs

instance instDecPredFrom (h : Heap) : (q : Nat) → (L : List Nat) → Decidable (predFrom h q L)
  | _, [] => inferInstanceAs (Decidable True)
  | q, x :: xs =>
    letI := instDecPredFrom h x xs
    inferInstanceAs (Decidable (get_pred h x = q ∧ predFrom h x xs))

instance : DecidableRel sep8 := fun a b => inferInstanceAs (Decidable (_ ∨ _))

/-- The head pointer of free list i as the code reads it. -/
def headPtr (h : Heap) (i : Nat) : Nat := get_addr h (GET h (rootAddr h i))

/-- Free list i is realized by the list L of block pointers: the forward
chain from the root spells out L, predecessor links are consistent, the
link areas are pairwise separated, all pointers are well formed, and none
of them overlaps the root slot. -/
def wfList (h : Heap) (i : Nat) (L : List Nat) : Prop :=
  chainFrom h (headPtr h i) L ∧ predFrom h 0 L ∧ List.Pairwise sep8 L ∧
    (∀ x ∈ L, okPtr h x) ∧ (∀ x ∈ L, rootAddr h i + 4 ≤ x ∨ x + 8 ≤ rootAddr h i)

/-- Address a's 4-byte word is disjoint from the root slot of list i and
from every link word of the blocks in L. -/
def away (h : Heap) (i : Nat) (L : List Nat) (a : Nat) : Prop :=
  disj4 a (rootAddr h i) ∧ ∀ x ∈ L, disj4 a x ∧ disj4 a (x + 4)

instance (h : Heap) (x : Nat) : Decidable (okPtr h x) :=
  inferInstanceAs (Decidable (_ ∧ _ ∧ _))

instance (h : Heap) (i : Nat) (L : List Nat) : Decidable (wfList h i L) :=
  inferInstanceAs (Decidable (_ ∧ _ ∧ _ ∧ _ ∧ _))

instance (h : Heap) (i : Nat) (L : List Nat) (a : Nat) : Decidable (away h i L a) :=
  inferInstanceAs (Decidable (_ ∧ _))

/-- Concatenation of the class lists i, i+1, ..., i+n-1. -/
def concatLists (Ls : Nat → List Nat) : Nat → Nat → List Nat
  | _, 0 => []
  | i, n + 1 => Ls i ++ concatLists Ls (i + 1) n

/-- The least multiple of 8 that is at least n (claim vocabulary). -/
def roundUp8 (n : Nat) : Nat := (n + 7) / 8 * 8

/-- A pristine pre-init state: zero memory, break at 8, ample provider limit. -/
def heap0 : Heap := ⟨fun _ => 0, 8, 2000, 0, 0⟩

/-- The state after mm_init on heap0 (prologue at 8, twenty roots, one free
256-byte block at 104, epilogue header at 356). -/
def initHeap : Heap := (mm_init heap0).1

/-- initHeap after mm_malloc(8): block 104 (size 16) allocated, remainder
free block at 120 (size 240) in class 12. -/
def mallocHeap : Heap := (mm_malloc initHeap 8).1

/-- mallocHeap with the 0xAB byte pattern written through the returned
pointer 104 (three word stores of 0xABABABAB by the client). -/
def reallocHeap : Heap := PUT (PUT (PUT mallocHeap 104 2880154539) 108 2880154539) 112 2880154539

/-- A small heap exercising coalesce case 2: free block at 104 (size 16,
prev allocated), free neighbor at 120 (size 24) alone in class 1, epilogue
header at 140. -/
def c4Heap : Heap :=
  PUT (PUT (PUT (PUT (PUT (⟨fun _ => 0, 1000, 2000, 8, 16⟩ : Heap) 100 18) 116 24) 136 24) 140 1) 24 112

/-- A small heap exercising the whole-block branch of place: free block at
104 (size 16, prev allocated) alone in class 0, epilogue header at 116. -/
def c5Heap : Heap :=
  PUT (PUT (PUT (⟨fun _ => 0, 1000, 2000, 8, 16⟩ : Heap) 100 18) 20 96) 116 1

/-- initHeap with the provider limit lowered to the current break, so any
further extension request is refused. -/
def c6Heap : Heap := { initHeap with maxAddr := 360 }

/-! ### Byte-memory lemmas -/

theorem upd_same (m : Nat → Nat) (a v : Nat) : upd m a v a = v := by
  simp [upd]

theorem upd_ne (m : Nat → Nat) (a v x : Nat) (hx : x ≠ a) : upd m a v x = m x := by
  simp [upd, hx]

@[simp] theorem PUT_brk (h : Heap) (p v : Nat) : (PUT h p v).brk = h.brk := rfl

@[simp] theorem PUT_maxAddr (h : Heap) (p v : Nat) : (PUT h p v).maxAddr = h.maxAddr := rfl

@[simp] theorem PUT_heap_start (h : Heap) (p v : Nat) : (PUT h p v).heap_start = h.heap_start := rfl

@[simp] theorem PUT_heap_listp (h : Heap) (p v : Nat) : (PUT h p v).heap_listp = h.heap_listp := rfl

theorem GET_lt (h : Heap) (p : Nat) : GET h p < 4294967296 := by
  unfold GET
  have h0 : h.mem p % 256 < 256 := Nat.mod_lt _ (by norm_num)
  have h1 : h.mem (p + 1) % 256 < 256 := Nat.mod_lt _ (by norm_num)
  have h2 : h.mem (p + 2) % 256 < 256 := Nat.mod_lt _ (by norm_num)
  have h3 : h.mem (p + 3) % 256 < 256 := Nat.mod_lt _ (by norm_num)
  omega

theorem GET_PUT_same (h : Heap) (p v : Nat) : GET (PUT h p v) p = v % 4294967296 := by
  unfold GET PUT
  simp only
  rw [upd_ne _ _ _ _ (by omega), upd_ne _ _ _ _ (by omega), upd_ne _ _ _ _ (by omega),
    upd_same]
  rw [upd_ne _ _ _ _ (by omega), upd_ne _ _ _ _ (by omega), upd_same]
  rw [upd_ne _ _ _ _ (by omega), upd_same]
  rw [upd_same]
  omega

theorem GET_PUT_out (h : Heap) (p v q : Nat) (hd : q + 4 ≤ p ∨ p + 4 ≤ q) :
    GET (PUT h p v) q = GET h q := by
  unfold GET PUT
  simp only
  rw [upd_ne _ _ _ _ (by omega), upd_ne _ _ _ _ (by omega), upd_ne _ _ _ _ (by omega),
    upd_ne _ _ _ _ (by omega), upd_ne _ _ _ _ (by omega), upd_ne _ _ _ _ (by omega),
    upd_ne _ _ _ _ (by omega), upd_ne _ _ _ _ (by omega), upd_ne _ _ _ _ (by omega),
    upd_ne _ _ _ _ (by omega), upd_ne _ _ _ _ (by omega), upd_ne _ _ _ _ (by omega),
    upd_ne _ _ _ _ (by omega), upd_ne _ _ _ _ (by omega), upd_ne _ _ _ _ (by omega),
    upd_ne _ _ _ _ (by omega)]

/-! ### Bit-packing lemmas for the header encoding -/

theorem testBit_eight_mul_add (q r i : Nat) (hr : r < 8) :
    (8 * q + r).testBit i = if i < 3 then r.testBit i else q.testBit (i - 3) := by
  by_cases h3 : i < 3
  · rw [if_pos h3]
    have e1 : (8 * q + r).testBit i = ((8 * q + r) % 2 ^ 3).testBit i := by
      rw [Nat.testBit_mod_two_pow]
      simp [h3]
    rw [e1, show (8 * q + r) % 2 ^ 3 = r by omega]
  · rw [if_neg h3]
    obtain ⟨j, rfl⟩ : ∃ j, i = j + 3 := ⟨i - 3, by omega⟩
    simp only [Nat.add_sub_cancel]
    rw [Nat.testBit_to_div_mod, Nat.testBit_to_div_mod]
    have e1 : (2 : Nat) ^ (j + 3) = 8 * 2 ^ j := by
      rw [pow_add]; ring
    rw [e1, ← Nat.div_div_eq_div_mul, show (8 * q + r) / 8 = q by omega]

theorem testBit_mul8 (q i : Nat) :
    (8 * q).testBit i = if i < 3 then false else q.testBit (i - 3) := by
  have := testBit_eight_mul_add q 0 i (by norm_num)
  simpa using this

theorem testBit_mask8 (i : Nat) :
    (4294967288 : Nat).testBit i = (decide (3 ≤ i) && decide (i < 32)) := by
  have e : (4294967288 : Nat) = 8 * (2 ^ 29 - 1) + 0 := by norm_num
  rw [e, testBit_eight_mul_add _ _ _ (by norm_num)]
  by_cases h3 : i < 3
  · rw [if_pos h3]
    have : ¬ 3 ≤ i := by omega
    simp [this]
  · rw [if_neg h3, Nat.testBit_two_pow_sub_one]
    have h3' : 3 ≤ i := by omega
    by_cases h32 : i < 32
    · have : i - 3 < 29 := by omega
      simp [this, h3', h32]
    · have : ¬ (i - 3 < 29) := by omega
      simp [this, h32]

theorem testBit_mask2 (i : Nat) :
    (4294967293 : Nat).testBit i = (decide (i ≠ 1) && decide (i < 32)) := by
  have e : (4294967293 : Nat) = 8 * (2 ^ 29 - 1) + 5 := by norm_num
  rw [e, testBit_eight_mul_add _ _ _ (by norm_num)]
  by_cases h3 : i < 3
  · rw [if_pos h3]
    interval_cases i <;> decide
  · rw [if_neg h3, Nat.testBit_two_pow_sub_one]
    have h1 : i ≠ 1 := by omega
    by_cases h32 : i < 32
    · have : i - 3 < 29 := by omega
      simp [this, h1, h32]
    · have : ¬ (i - 3 < 29) := by omega
      simp [this, h32]

theorem testBit_two (i : Nat) : (2 : Nat).testBit i = decide (i = 1) := by
  have : (2 : Nat) = 2 ^ 1 := by norm_num
  rw [this, Nat.testBit_two_pow]
  by_cases h : i = 1 <;> simp [h]
  omega

theorem pack_eq_add (s a : Nat) (hs : s % 8 = 0) (ha : a < 8) : s ||| a = s + a := by
  obtain ⟨q, rfl⟩ : ∃ q, s = 8 * q := ⟨s / 8, by omega⟩
  apply Nat.eq_of_testBit_eq
  intro i
  rw [Nat.testBit_or, testBit_mul8, testBit_eight_mul_add _ _ _ ha]
  by_cases h3 : i < 3
  · simp [h3]
  · have h2 : a.testBit i = false := by
      apply Nat.testBit_lt_two_pow
      calc a < 8 := ha
        _ = 2 ^ 3 := by norm_num
        _ ≤ 2 ^ i := Nat.pow_le_pow_right (by norm_num) (by omega)
    simp [h3, h2]

theorem size_decode (s a : Nat) (hs : s % 8 = 0) (hlt : s < 4294967296) (ha : a < 8) :
    (s + a) &&& 4294967288 = s := by
  obtain ⟨q, rfl⟩ : ∃ q, s = 8 * q := ⟨s / 8, by omega⟩
  apply Nat.eq_of_testBit_eq
  intro i
  rw [Nat.testBit_and, testBit_eight_mul_add _ _ _ ha, testBit_mask8, testBit_mul8]
  by_cases h3 : i < 3
  · simp [h3, show ¬ 3 ≤ i by omega]
  · by_cases h32 : i < 32
    · simp [h3, show 3 ≤ i by omega, h32]
    · have hq : q.testBit (i - 3) = false := by
        apply Nat.testBit_lt_two_pow
        have : q < 2 ^ 29 := by omega
        calc q < 2 ^ 29 := this
          _ ≤ 2 ^ (i - 3) := Nat.pow_le_pow_right (by norm_num) (by omega)
      simp [h3, hq]

theorem alloc_decode (s a : Nat) (hs : s % 8 = 0) (ha : a < 8) :
    (s + a) &&& 1 = a % 2 := by
  rw [Nat.and_one_is_mod]
  omega

theorem prev_decode (s a : Nat) (hs : s % 8 = 0) (ha : a < 8) :
    (s + a) &&& 2 = a &&& 2 := by
  obtain ⟨q, rfl⟩ : ∃ q, s = 8 * q := ⟨s / 8, by omega⟩
  apply Nat.eq_of_testBit_eq
  intro i
  rw [Nat.testBit_and, Nat.testBit_and, testBit_eight_mul_add _ _ _ ha, testBit_two]
  by_cases h1 : i = 1
  · subst h1; simp
  · simp [h1]

theorem clear2_decode (s a : Nat) (hs : s % 8 = 0) (hlt : s < 4294967296) (ha : a < 8) :
    (s + a) &&& 4294967293 = s + (a &&& 5) := by
  obtain ⟨q, rfl⟩ : ∃ q, s = 8 * q := ⟨s / 8, by omega⟩
  have ha5 : a &&& 5 < 8 := lt_of_le_of_lt Nat.and_le_right (by norm_num)
  apply Nat.eq_of_testBit_eq
  intro i
  rw [Nat.testBit_and, testBit_eight_mul_add _ _ _ ha, testBit_mask2,
    testBit_eight_mul_add _ _ _ ha5]
  by_cases h3 : i < 3
  · rw [if_pos h3, if_pos h3, Nat.testBit_and]
    have e5 : (5 : Nat).testBit i = decide (i ≠ 1) := by
      interval_cases i <;> decide
    rw [e5]
    simp [show i < 32 by omega]
  · rw [if_neg h3, if_neg h3]
    by_cases h32 : i < 32
    · simp [show i ≠ 1 by omega, h32]
    · have hq : q.testBit (i - 3) = false := by
        apply Nat.testBit_lt_two_pow
        have : q < 2 ^ 29 := by omega
        calc q < 2 ^ 29 := this
          _ ≤ 2 ^ (i - 3) := Nat.pow_le_pow_right (by norm_num) (by omega)
      simp [hq, h32]

theorem or2_decode (s a : Nat) (hs : s % 8 = 0) (ha : a < 8) :
    (s + a) ||| 2 = s + (a ||| 2) := by
  obtain ⟨q, rfl⟩ : ∃ q, s = 8 * q := ⟨s / 8, by omega⟩
  have ha2 : a ||| 2 < 8 := by
    have h8 : a < 2 ^ 3 := by omega
    have := Nat.or_lt_two_pow h8 (show (2 : Nat) < 2 ^ 3 by norm_num)
    omega
  apply Nat.eq_of_testBit_eq
  intro i
  rw [Nat.testBit_or, testBit_eight_mul_add _ _ _ ha, testBit_eight_mul_add _ _ _ ha2,
    Nat.testBit_or, testBit_two]
  by_cases h3 : i < 3
  · simp [h3]
  · simp [h3, show i ≠ 1 by omega]

theorem or2_size (x : Nat) : (x ||| 2) &&& 4294967288 = x &&& 4294967288 := by
  apply Nat.eq_of_testBit_eq
  intro i
  rw [Nat.testBit_and, Nat.testBit_and, Nat.testBit_or, testBit_two, testBit_mask8]
  by_cases h1 : i = 1
  · subst h1; simp
  · simp [h1]

theorem testBit_one (i : Nat) : (1 : Nat).testBit i = decide (i = 0) := by
  rw [show (1 : Nat) = 2 ^ 0 from (pow_zero 2).symm, Nat.testBit_two_pow]
  exact decide_eq_decide.mpr eq_comm

theorem or2_alloc (x : Nat) : (x ||| 2) &&& 1 = x &&& 1 := by
  apply Nat.eq_of_testBit_eq
  intro i
  rw [Nat.testBit_and, Nat.testBit_and, Nat.testBit_or, testBit_two, testBit_one]
  by_cases h0 : i = 0
  · subst h0; simp
  · simp [h0]

theorem or2_prev (x : Nat) : (x ||| 2) &&& 2 = 2 := by
  apply Nat.eq_of_testBit_eq
  intro i
  rw [Nat.testBit_and, Nat.testBit_or, testBit_two]
  by_cases h1 : i = 1
  · subst h1; simp
  · simp [h1]

theorem clear2_prev (x : Nat) : (x &&& 4294967293) &&& 2 = 0 := by
  rw [Nat.and_assoc, show (4294967293 &&& 2 : Nat) = 0 from rfl, Nat.and_zero]

theorem clear2_size (x : Nat) : (x &&& 4294967293) &&& 4294967288 = x &&& 4294967288 := by
  rw [Nat.and_assoc, show (4294967293 &&& 4294967288 : Nat) = 4294967288 from rfl]

theorem clear2_alloc (x : Nat) : (x &&& 4294967293) &&& 1 = x &&& 1 := by
  rw [Nat.and_assoc, show (4294967293 &&& 1 : Nat) = 1 from rfl]

theorem and2_cases (x : Nat) : x &&& 2 = 0 ∨ x &&& 2 = 2 := by
  have e := Nat.and_two_pow x 1
  rw [pow_one] at e
  cases hb : x.testBit 1 <;> simp [hb] at e <;> omega

theorem and1_cases (x : Nat) : x &&& 1 = 0 ∨ x &&& 1 = 1 := by
  rw [Nat.and_one_is_mod]
  omega

theorem mask8_mod8 (x : Nat) : (x &&& 4294967288) % 8 = 0 := by
  have e : (x &&& 4294967288) % 8 = (x &&& 4294967288) &&& (2 ^ 3 - 1) := by
    rw [Nat.and_pow_two_sub_one_eq_mod]
  rw [e, Nat.and_assoc, show ((4294967288 : Nat) &&& (2 ^ 3 - 1)) = 0 from rfl, Nat.and_zero]

theorem size_any_mod8 (h : Heap) (p : Nat) : GET_SIZE h p % 8 = 0 :=
  mask8_mod8 (GET h p)

theorem size_any_lt (h : Heap) (p : Nat) : GET_SIZE h p < 4294967296 :=
  lt_of_le_of_lt Nat.and_le_right (by norm_num)

theorem adjusted_size_mod8 (n : Nat) : adjusted_size n % 8 = 0 := by
  unfold adjusted_size
  split
  · norm_num
  · omega

/-! ### C8: adjusted request size -/

/-- C8 counterexample: at n = 2^64 - 11 the size_t computation of asize wraps
to 0, so asize is neither max(16, round_up_8(n+4)) nor at least 16. -/
theorem c8_adjusted_size_counterexample :
    adjusted_size 18446744073709551605 = 0 ∧
    adjusted_size 18446744073709551605 ≠
      max 16 (roundUp8 (18446744073709551605 + 4)) ∧
    ¬ 16 ≤ adjusted_size 18446744073709551605 := by
  refine ⟨by decide, ?_, by decide⟩
  rw [show adjusted_size 18446744073709551605 = 0 from by decide]
  unfold roundUp8
  norm_num

/-- C8 (amended): for every user request of n > 0 bytes with n + 11 < 2^64
(so that the size_t sum n + 4 + 7 does not wrap), allocate computes the
adjusted block size asize = max(16, round_up_8(n + 4)); in particular every
request with n <= 12 yields asize = 16, and asize is always a multiple of 8
and at least 16. -/
theorem c8_adjusted_size (n : Nat) (h0 : 0 < n) (hb : n + 11 < 18446744073709551616) :
    adjusted_size n = max 16 (roundUp8 (n + 4)) ∧ adjusted_size n % 8 = 0 ∧
      16 ≤ adjusted_size n ∧ (n ≤ 12 → adjusted_size n = 16) := by
  unfold adjusted_size roundUp8
  refine ⟨?_, ?_, ?_, ?_⟩ <;> split <;> omega

/-- Witness for C8 at the concrete request n = 13. -/
theorem c8_adjusted_size_witness :
    adjusted_size 13 = max 16 (roundUp8 (13 + 4)) ∧ adjusted_size 13 % 8 = 0 ∧
      16 ≤ adjusted_size 13 ∧ (13 ≤ 12 → adjusted_size 13 = 16) :=
  c8_adjusted_size 13 (by norm_num) (by norm_num)

/-! ### C9: pointer-compression round trip -/

/-- C9: get_offset(NULL) = 0 and get_addr(0) = NULL, and for every non-null
pointer bp inside the heap with bp distinct from heap_start and
bp - heap_start representable in 32 bits, get_addr(get_offset(bp)) = bp. -/
theorem c9_offset_roundtrip (h : Heap) (bp : Nat) (hnn : bp ≠ 0)
    (hin : h.heap_start ≤ bp) (hne : bp ≠ h.heap_start)
    (h32 : bp - h.heap_start < 4294967296) (h64 : bp < 18446744073709551616) :
    get_offset h 0 = 0 ∧ get_addr h 0 = 0 ∧ get_addr h (get_offset h bp) = bp := by
  refine ⟨by simp [get_offset], by simp [get_addr], ?_⟩
  unfold get_offset get_addr
  rw [if_pos hnn]
  have e1 : (((bp : Int) - (h.heap_start : Int)) % 4294967296).toNat = bp - h.heap_start := by
    omega
  rw [e1]
  simp only [Nat.mod_eq_of_lt h32]
  rw [if_neg (by omega)]
  omega

/-- Witness for C9 at bp = 104 in the pristine state (heap_start = 0). -/
theorem c9_offset_roundtrip_witness :
    get_offset heap0 0 = 0 ∧ get_addr heap0 0 = 0 ∧
      get_addr heap0 (get_offset heap0 104) = 104 :=
  c9_offset_roundtrip heap0 104 (by decide) (by decide) (by decide) (by decide) (by decide)

/-! ### C2: the size-class function -/

theorem get_list_loop_le (S : Nat) :
    ∀ f i c, get_list_loop S f i c ≤ max 19 (10 + c + f) := by
  intro f
  induction f with
  | zero => intro i c; simp [get_list_loop]
  | succ f ih =>
    intro i c
    rw [get_list_loop]
    split
    · split
      · omega
      · have := ih (i * 2) (c + 1)
        omega
    · omega

theorem get_list_loop_eval (S : Nat) :
    ∀ f c k, c < k → k ≤ c + f → k ≤ 9 →
      96 * 2 ^ (k - 1) < S → S ≤ 192 * 2 ^ (k - 1) →
      get_list_loop S f (192 * 2 ^ c) c = 10 + k := by
  intro f
  induction f with
  | zero => intro c k h1 h2; omega
  | succ f ih =>
    intro c k h1 h2 h9 hlo hhi
    rw [get_list_loop]
    have hc8 : c ≤ 8 := by omega
    have hle : (192 : Nat) * 2 ^ c ≤ 49152 := by
      have h2c : (2 : Nat) ^ c ≤ 2 ^ 8 := Nat.pow_le_pow_right (by norm_num) hc8
      calc (192 : Nat) * 2 ^ c ≤ 192 * 2 ^ 8 := by
            exact Nat.mul_le_mul_left 192 h2c
        _ = 49152 := by norm_num
    rw [if_pos hle]
    have hdiv : 192 * 2 ^ c / 2 = 96 * 2 ^ c := by omega
    by_cases hk : k = c + 1
    · subst hk
      have e1 : c + 1 - 1 = c := by omega
      rw [e1] at hlo hhi
      have hcond : S ≤ 192 * 2 ^ c ∧ 192 * 2 ^ c / 2 < S := ⟨hhi, by omega⟩
      rw [if_pos hcond]
    · have hck : c + 1 ≤ k - 1 := by omega
      have h2c : (2 : Nat) ^ (c + 1) ≤ 2 ^ (k - 1) := Nat.pow_le_pow_right (by norm_num) hck
      have e3 : (96 : Nat) * 2 ^ (c + 1) = 192 * 2 ^ c := by
        rw [pow_succ]; ring
      have h4 : (96 : Nat) * 2 ^ (c + 1) ≤ 96 * 2 ^ (k - 1) := Nat.mul_le_mul_left 96 h2c
      rw [if_neg (by omega)]
      have e2 : 192 * 2 ^ c * 2 = 192 * 2 ^ (c + 1) := by
        rw [pow_succ]; ring
      rw [e2]
      exact ih (c + 1) k (by omega) (by omega) h9 hlo hhi

theorem get_list_k_minimal (S k : Nat) (hk : 0 < k) (hlo : 96 * 2 ^ (k - 1) < S) :
    ∀ j, 0 < j → S ≤ 192 * 2 ^ (j - 1) → k ≤ j := by
  intro j hj hle
  by_contra hjk
  push_neg at hjk
  have hk2 : 2 ≤ k := by omega
  have h1 : j - 1 ≤ k - 2 := by omega
  have h2 : (2 : Nat) ^ (j - 1) ≤ 2 ^ (k - 2) := Nat.pow_le_pow_right (by norm_num) h1
  have h3 : 96 * 2 ^ (k - 1) = 192 * 2 ^ (k - 2) := by
    have e : k - 1 = (k - 2) + 1 := by omega
    rw [e, pow_succ]; ring
  have h4 : (192 : Nat) * 2 ^ (j - 1) ≤ 192 * 2 ^ (k - 2) := Nat.mul_le_mul_left 192 h2
  omega

theorem get_list_le19 (S : Nat) (h16 : 16 ≤ S) (h32 : S < 4294967296) :
    get_list S ≤ 19 := by
  have hm : S % 4294967296 = S := Nat.mod_eq_of_lt h32
  unfold get_list
  simp only [hm]
  split
  · omega
  · split
    · have := get_list_loop_le S 9 192 0
      omega
    · omega

/-- C2: for every requested allocation size S with 16 <= S (and S in the
domain of the unsigned int parameter), get_list returns (S-16)/8 when
S <= 96; otherwise, when S <= 49152, it returns 10 + k where k is the
smallest positive integer with S <= 192 * 2^(k-1); otherwise it returns 19.
In particular every result lies in 0..19. -/
theorem c2_get_list (S : Nat) (h16 : 16 ≤ S) (h32 : S < 4294967296) :
    (S ≤ 96 → get_list S = (S - 16) / 8) ∧
    (96 < S → S ≤ 49152 →
      ∃ k, 0 < k ∧ S ≤ 192 * 2 ^ (k - 1) ∧
        (∀ j, 0 < j → S ≤ 192 * 2 ^ (j - 1) → k ≤ j) ∧ get_list S = 10 + k) ∧
    (49152 < S → get_list S = 19) ∧ get_list S ≤ 19 := by
  have hm : S % 4294967296 = S := Nat.mod_eq_of_lt h32
  have hbody : ∀ k, 0 < k → k ≤ 9 → 96 * 2 ^ (k - 1) < S → S ≤ 192 * 2 ^ (k - 1) →
      96 < S → S ≤ 49152 →
      ∃ k', 0 < k' ∧ S ≤ 192 * 2 ^ (k' - 1) ∧
        (∀ j, 0 < j → S ≤ 192 * 2 ^ (j - 1) → k' ≤ j) ∧ get_list S = 10 + k' := by
    intro k hk h9 hlo hhi hS96 hS49
    refine ⟨k, hk, hhi, get_list_k_minimal S k hk hlo, ?_⟩
    unfold get_list
    simp only [hm]
    rw [if_neg (by omega), if_pos ⟨hS96, hS49⟩]
    have e192 : (192 : Nat) = 192 * 2 ^ 0 := by norm_num
    rw [e192]
    exact get_list_loop_eval S 9 0 k (by omega) (by omega) h9 hlo hhi
  refine ⟨?_, ?_, ?_, ?_⟩
  · intro h96
    unfold get_list
    simp only [hm]
    rw [if_pos h96]
    have e : (S + (4294967296 - 16)) % 4294967296 = S - 16 := by omega
    rw [e]
  · intro hS96 hS49
    have hcase : (S ≤ 192) ∨ (192 < S ∧ S ≤ 384) ∨ (384 < S ∧ S ≤ 768) ∨
        (768 < S ∧ S ≤ 1536) ∨ (1536 < S ∧ S ≤ 3072) ∨ (3072 < S ∧ S ≤ 6144) ∨
        (6144 < S ∧ S ≤ 12288) ∨ (12288 < S ∧ S ≤ 24576) ∨ (24576 < S) := by omega
    rcases hcase with h | h | h | h | h | h | h | h | h
    · exact hbody 1 (by norm_num) (by norm_num) (by norm_num; omega) (by norm_num; omega) hS96 hS49
    · exact hbody 2 (by norm_num) (by norm_num) (by norm_num; omega) (by norm_num; omega) hS96 hS49
    · exact hbody 3 (by norm_num) (by norm_num) (by norm_num; omega) (by norm_num; omega) hS96 hS49
    · exact hbody 4 (by norm_num) (by norm_num) (by norm_num; omega) (by norm_num; omega) hS96 hS49
    · exact hbody 5 (by norm_num) (by norm_num) (by norm_num; omega) (by norm_num; omega) hS96 hS49
    · exact hbody 6 (by norm_num) (by norm_num) (by norm_num; omega) (by norm_num; omega) hS96 hS49
    · exact hbody 7 (by norm_num) (by norm_num) (by norm_num; omega) (by norm_num; omega) hS96 hS49
    · exact hbody 8 (by norm_num) (by norm_num) (by norm_num; omega) (by norm_num; omega) hS96 hS49
    · exact hbody 9 (by norm_num) (by norm_num) (by norm_num; omega) (by norm_num; omega) hS96 hS49
  · intro h49
    unfold get_list
    simp only [hm]
    rw [if_neg (by omega), if_neg (by omega)]
  · exact get_list_le19 S h16 h32

/-- Witness for C2 at the concrete size S = 100 (class 11, k = 1). -/
theorem c2_get_list_witness :
    ((100 : Nat) ≤ 96 → get_list 100 = (100 - 16) / 8) ∧
    (96 < (100 : Nat) → (100 : Nat) ≤ 49152 →
      ∃ k, 0 < k ∧ 100 ≤ 192 * 2 ^ (k - 1) ∧
        (∀ j, 0 < j → 100 ≤ 192 * 2 ^ (j - 1) → k ≤ j) ∧ get_list 100 = 10 + k) ∧
    (49152 < (100 : Nat) → get_list 100 = 19) ∧ get_list 100 ≤ 19 :=
  c2_get_list 100 (by norm_num) (by norm_num)

/-! ### C6: provider refusal leaves the state unchanged -/

theorem extend_heap_refused (h : Heap) (E : Nat) (h8 : E % 8 = 0)
    (hrefuse : h.maxAddr < h.brk + E) :
    extend_heap h (E / 4) = (h, 0) := by
  unfold extend_heap
  have hsz : (if E / 4 % 2 = 1 then (E / 4 + 1) * 4 else E / 4 * 4) = E := by
    rw [if_neg (by omega)]
    omega
  simp only [hsz]
  unfold mem_sbrk
  rw [if_pos hrefuse]
  simp

/-- C6: when the heap provider refuses the extension request (the break
plus max(asize, CHUNKSIZE) would exceed its limit) and no free block fits,
allocate and reallocate return null and the heap state -- memory, break,
and both globals, hence all block headers, footers and free-list links --
is exactly unchanged; in particular reallocate leaves the original block
untouched on failure. -/
theorem c6_oom_unchanged (h : Heap) (n ptr : Nat) (hinit : h.heap_listp ≠ 0)
    (hn : n ≠ 0) (hptr : ptr ≠ 0)
    (hff : find_fit h (adjusted_size n) = none)
    (hrefuse : h.maxAddr < h.brk + max (adjusted_size n) 256) :
    mm_malloc h n = (h, 0) ∧ mm_realloc h ptr n = (h, 0) := by
  have hmalloc : mm_malloc h n = (h, 0) := by
    unfold mm_malloc
    rw [if_neg hinit]
    unfold malloc_body
    rw [if_neg hn]
    have h8 : max (adjusted_size n) 256 % 8 = 0 := by
      have := adjusted_size_mod8 n
      omega
    have hext := extend_heap_refused h (max (adjusted_size n) 256) h8 hrefuse
    simp [hff, hext]
  refine ⟨hmalloc, ?_⟩
  unfold mm_realloc
  rw [if_neg hn, if_neg hptr, hmalloc]
  simp

/-- Witness for C6: the post-init heap with the provider limit lowered to
the current break, a request of 300 bytes (no fit among the free lists). -/
theorem c6_oom_unchanged_witness :
    mm_malloc c6Heap 300 = (c6Heap, 0) ∧ mm_realloc c6Heap 104 300 = (c6Heap, 0) :=
  c6_oom_unchanged c6Heap 300 104 (by decide) (by decide) (by decide) (by decide) (by decide)

/-! ### C10: allocate and free self-initialize -/

theorem mem_sbrk_heap_listp (h : Heap) (n : Nat) :
    ((mem_sbrk h n).2).heap_listp = h.heap_listp := by
  unfold mem_sbrk
  split <;> rfl

theorem del_list_heap_listp (h : Heap) (bp : Nat) :
    (del_list h bp).heap_listp = h.heap_listp := by
  unfold del_list
  dsimp only
  repeat' split
  all_goals rfl

theorem add_start_heap_listp (h : Heap) (bp : Nat) :
    (add_start h bp).heap_listp = h.heap_listp := by
  unfold add_start
  dsimp only
  repeat' split
  all_goals rfl

theorem coalesce_heap_listp (h : Heap) (bp : Nat) :
    ((coalesce h bp).1).heap_listp = h.heap_listp := by
  unfold coalesce
  dsimp only
  repeat' split
  all_goals simp [del_list_heap_listp]

theorem extend_heap_heap_listp (h : Heap) (w : Nat) :
    ((extend_heap h w).1).heap_listp = h.heap_listp := by
  unfold extend_heap
  dsimp only
  repeat' split
  all_goals simp [add_start_heap_listp, coalesce_heap_listp, mem_sbrk_heap_listp]

theorem init_roots_heap_listp (h : Heap) (p : Nat) :
    (init_roots h p).heap_listp = h.heap_listp := by
  unfold init_roots
  generalize List.range 20 = L
  induction L generalizing h with
  | nil => rfl
  | cons x xs ih => exact (ih (PUT h (p + (3 + x) * 4) 0)).trans rfl

theorem mm_init_heap_listp_ne (h : Heap) : ((mm_init h).1).heap_listp ≠ 0 := by
  unfold mm_init
  dsimp only
  split
  · next hfail =>
    rw [hfail]
    unfold sbrkFail
    norm_num
  · split <;> simp [extend_heap_heap_listp, init_roots_heap_listp]

/-- C10: if allocate(n) is invoked before init has ever run (heap pointer
still unset), it performs the full initialization mm_init and then services
the request exactly as if init had been called beforehand; free(ptr) with
non-null ptr likewise triggers initialization (the block size having been
read before the check, exactly as in the source). -/
theorem c10_self_init (h : Heap) (n bp : Nat) (hun : h.heap_listp = 0) (hbp : bp ≠ 0) :
    ((mm_init h).1).heap_listp ≠ 0 ∧
    mm_malloc h n = mm_malloc ((mm_init h).1) n ∧
    mm_free h bp = free_body ((mm_init h).1) bp (GET_SIZE h (HDRP bp)) := by
  have hne := mm_init_heap_listp_ne h
  refine ⟨hne, ?_, ?_⟩
  · show (malloc_body (if h.heap_listp = 0 then (mm_init h).1 else h) n) =
      (malloc_body (if ((mm_init h).1).heap_listp = 0 then (mm_init (mm_init h).1).1
        else (mm_init h).1) n)
    rw [if_pos hun, if_neg hne]
  · unfold mm_free
    rw [if_neg hbp, if_pos hun]

/-- Witness for C10 at the pristine pre-init state with n = 8, bp = 104. -/
theorem c10_self_init_witness :
    ((mm_init heap0).1).heap_listp ≠ 0 ∧
    mm_malloc heap0 8 = mm_malloc ((mm_init heap0).1) 8 ∧
    mm_free heap0 104 = free_body ((mm_init heap0).1) 104 (GET_SIZE heap0 (HDRP 104)) :=
  c10_self_init heap0 8 104 rfl (by norm_num)

/-! ### C1: bytes copied by reallocate -/

set_option maxRecDepth 100000

/-- C1 counterexample: in the concrete state reallocHeap the old block at
ptr = 104 has GET_SIZE = 16, so the claim mandates that exactly
min(16 - overhead, 100) = 12 bytes be copied; but the code passes
min(16, 100) = 16 to memcpy, and indeed the byte at offset 12 of the new
block 120 (address 132), untouched before the call, receives the
corresponding source byte (the 13th byte was copied). -/
theorem c1_realloc_copy_counterexample :
    (mm_realloc reallocHeap 104 100).2 = 120 ∧
    GET_SIZE reallocHeap (HDRP 104) = 16 ∧
    realloc_copylen (mm_malloc reallocHeap 100).1 104 100 = 16 ∧
    min (GET_SIZE reallocHeap (HDRP 104) - 4) 100 = 12 ∧
    reallocHeap.mem (120 + 12) = 0 ∧
    ((mm_realloc reallocHeap 104 100).1).mem (120 + 12) = 107 ∧
    ((mm_realloc reallocHeap 104 100).1).mem (120 + 12) =
      ((mm_malloc reallocHeap 100).1).mem (104 + 12) := by
  decide

/-- C1 (amended): for every call reallocate(ptr, n) with ptr non-null and
n > 0 in which allocating the new block succeeds, exactly
min(size(ptr), n) bytes are copied from the old block into the new block
(the old block's full header-inclusive size, capped at n -- not
size(ptr) - overhead), then the old block is freed and the new block's
pointer is returned. -/
theorem c1_realloc_copies (h : Heap) (ptr n : Nat) (hptr : ptr ≠ 0) (hn : n ≠ 0)
    (hm : (mm_malloc h n).2 ≠ 0) :
    mm_realloc h ptr n =
      (mm_free (memcpy (mm_malloc h n).1 (mm_malloc h n).2 ptr
        (min (GET_SIZE (mm_malloc h n).1 (HDRP ptr)) n)) ptr, (mm_malloc h n).2) := by
  unfold mm_realloc
  rw [if_neg hn, if_neg hptr]
  dsimp only
  rw [if_neg hm]
  have e : realloc_copylen (mm_malloc h n).1 ptr n =
      min (GET_SIZE (mm_malloc h n).1 (HDRP ptr)) n := by
    unfold realloc_copylen
    dsimp only
    split <;> omega
  rw [e]

/-- Witness for C1 at the concrete state reallocHeap, ptr = 104, n = 100. -/
theorem c1_realloc_copies_witness :
    mm_realloc reallocHeap 104 100 =
      (mm_free (memcpy (mm_malloc reallocHeap 100).1 (mm_malloc reallocHeap 100).2 104
        (min (GET_SIZE (mm_malloc reallocHeap 100).1 (HDRP 104)) 100)) 104,
        (mm_malloc reallocHeap 100).2) :=
  c1_realloc_copies reallocHeap 104 100 (by norm_num) (by norm_num) (by decide)

/-! ### C5: the whole-block branch of place -/

theorem disj4_symm (a b : Nat) (h : disj4 a b) : disj4 b a := by
  unfold disj4 at *
  omega

theorem del_list_frame (h : Heap) (bp a : Nat)
    (hr : disj4 a (rootAddr h (get_list (GET_SIZE h (HDRP bp)))))
    (hpd : get_pred h bp ≠ 0 → disj4 a (get_pred h bp + 4))
    (hsc : get_succ h bp ≠ 0 → disj4 a (get_succ h bp)) :
    GET (del_list h bp) a = GET h a := by
  unfold del_list
  dsimp only
  by_cases hc1 : get_pred h bp = 0 ∧ get_succ h bp = 0
  · rw [if_pos hc1]
    exact GET_PUT_out _ _ _ _ hr
  · rw [if_neg hc1]
    by_cases hc2 : get_pred h bp = 0 ∧ get_succ h bp ≠ 0
    · rw [if_pos hc2]
      rw [GET_PUT_out _ _ _ _ (hsc hc2.2), GET_PUT_out _ _ _ _ hr]
    · rw [if_neg hc2]
      by_cases hc3 : get_pred h bp ≠ 0 ∧ get_succ h bp = 0
      · rw [if_pos hc3]
        exact GET_PUT_out _ _ _ _ (hpd hc3.1)
      · rw [if_neg hc3]
        have hpne : get_pred h bp ≠ 0 := by tauto
        have hsne : get_succ h bp ≠ 0 := by tauto
        rw [GET_PUT_out _ _ _ _ (hsc hsne), GET_PUT_out _ _ _ _ (hpd hpne)]

theorem or2_lt (w : Nat) (hw : w < 4294967296) : w ||| 2 < 4294967296 := by
  have hx : w < 2 ^ 32 := by omega
  have h2 : (2 : Nat) < 2 ^ 32 := by omega
  have := Nat.or_lt_two_pow hx h2
  omega

/-- C5: in the whole-block (no-split) branch of place(bp, asize), the header
of next_block(bp) is modified only in its prev_alloc bit, which is set to 1
(the code writes GET | 2, leaving its size field and allocated bit
unchanged), and bp's own header keeps its prev_alloc bit while becoming
allocated with size csize.  The hypotheses pin down csize, select the
whole-block branch, and keep del_list's link splicing away from the two
headers. -/
theorem c5_place_whole_frame (h : Heap) (bp asize csize : Nat)
    (hcs : GET_SIZE h (HDRP bp) = csize)
    (hbranch : usub64 csize asize < 16)
    (h16 : 16 ≤ csize) (hbp : 8 ≤ bp)
    (hr1 : disj4 (rootAddr h (get_list csize)) (bp - 4))
    (hr2 : disj4 (rootAddr h (get_list csize)) (bp + csize - 4))
    (hpd : get_pred h bp ≠ 0 →
      disj4 (get_pred h bp + 4) (bp - 4) ∧ disj4 (get_pred h bp + 4) (bp + csize - 4))
    (hsc : get_succ h bp ≠ 0 →
      disj4 (get_succ h bp) (bp - 4) ∧ disj4 (get_succ h bp) (bp + csize - 4)) :
    NEXT_BLKP h bp = bp + csize ∧
    NEXT_BLKP (place h bp asize) bp = bp + csize ∧
    GET (place h bp asize) (bp + csize - 4) = GET h (bp + csize - 4) ||| 2 ∧
    GET_SIZE (place h bp asize) (bp + csize - 4) = GET_SIZE h (bp + csize - 4) ∧
    GET_ALLOC (place h bp asize) (bp + csize - 4) = GET_ALLOC h (bp + csize - 4) ∧
    GET_PREV_ALLOC (place h bp asize) (bp + csize - 4) = 2 ∧
    GET_SIZE (place h bp asize) (bp - 4) = csize ∧
    GET_ALLOC (place h bp asize) (bp - 4) = 1 ∧
    GET_PREV_ALLOC (place h bp asize) (bp - 4) = GET_PREV_ALLOC h (bp - 4) := by
  have hmod : csize % 8 = 0 := by
    have := size_any_mod8 h (HDRP bp)
    omega
  have hlt : csize < 4294967296 := by
    have := size_any_lt h (HDRP bp)
    omega
  set h1 := del_list h bp with hh1
  have e_hdr : GET h1 (bp - 4) = GET h (bp - 4) := by
    rw [hh1]
    apply del_list_frame
    · rw [hcs]
      exact disj4_symm _ _ hr1
    · intro hne
      exact disj4_symm _ _ (hpd hne).1
    · intro hne
      exact disj4_symm _ _ (hsc hne).1
  have e_next : GET h1 (bp + csize - 4) = GET h (bp + csize - 4) := by
    rw [hh1]
    apply del_list_frame
    · rw [hcs]
      exact disj4_symm _ _ hr2
    · intro hne
      exact disj4_symm _ _ (hpd hne).2
    · intro hne
      exact disj4_symm _ _ (hsc hne).2
  have epa : GET_PREV_ALLOC h1 (HDRP bp) = GET_PREV_ALLOC h (bp - 4) := by
    unfold GET_PREV_ALLOC HDRP
    rw [e_hdr]
  set AA := if GET_PREV_ALLOC h1 (HDRP bp) ≠ 0 then (3 : Nat) else 1 with hAA
  have pe : place h bp asize =
      PUT (PUT h1 (HDRP bp) (PACK csize AA))
        (HDRP (NEXT_BLKP (PUT h1 (HDRP bp) (PACK csize AA)) bp))
        (PACK (GET (PUT h1 (HDRP bp) (PACK csize AA))
          (HDRP (NEXT_BLKP (PUT h1 (HDRP bp) (PACK csize AA)) bp))) 2) := by
    unfold place
    dsimp only
    rw [hcs]
    rw [if_neg (by omega)]
    rw [← apply_ite (fun v => PUT h1 (HDRP bp) (PACK csize v))]
  have haa : AA < 8 := by
    rw [hAA]
    split <;> norm_num
  have hodd : AA % 2 = 1 := by
    rw [hAA]
    split <;> norm_num
  have haa2 : AA &&& 2 = GET_PREV_ALLOC h (bp - 4) := by
    rcases and2_cases (GET h (bp - 4)) with hz | hz
    · have hz' : GET_PREV_ALLOC h (bp - 4) = 0 := hz
      rw [hAA, if_neg (by rw [epa, hz']; simp), hz']
      rfl
    · have hz' : GET_PREV_ALLOC h (bp - 4) = 2 := hz
      rw [hAA, if_pos (by rw [epa, hz']; norm_num), hz']
      rfl
  have epack : PACK csize AA = csize + AA := pack_eq_add _ _ hmod haa
  have eg2hdr : GET (PUT h1 (HDRP bp) (PACK csize AA)) (bp - 4) = csize + AA := by
    show GET (PUT h1 (bp - 4) (PACK csize AA)) (bp - 4) = _
    rw [GET_PUT_same, epack, Nat.mod_eq_of_lt (by omega)]
  have enext2 : NEXT_BLKP (PUT h1 (HDRP bp) (PACK csize AA)) bp = bp + csize := by
    unfold NEXT_BLKP GET_SIZE
    rw [eg2hdr, size_decode _ _ hmod hlt haa]
  have ehd : HDRP (NEXT_BLKP (PUT h1 (HDRP bp) (PACK csize AA)) bp) = bp + csize - 4 := by
    rw [enext2]
    rfl
  have eg2next : GET (PUT h1 (HDRP bp) (PACK csize AA)) (bp + csize - 4) =
      GET h (bp + csize - 4) := by
    show GET (PUT h1 (bp - 4) (PACK csize AA)) (bp + csize - 4) = _
    rw [GET_PUT_out _ _ _ _ (by right; omega), e_next]
  have hW : GET h (bp + csize - 4) < 4294967296 := by
    rw [← e_next]
    exact GET_lt _ _
  have pe2 : place h bp asize =
      PUT (PUT h1 (HDRP bp) (PACK csize AA)) (bp + csize - 4)
        (GET h (bp + csize - 4) ||| 2) := by
    rw [pe, ehd, eg2next]
    rfl
  have e_hdr_final : GET (place h bp asize) (bp - 4) = csize + AA := by
    rw [pe2, GET_PUT_out _ _ _ _ (by left; omega)]
    exact eg2hdr
  have e_next_final : GET (place h bp asize) (bp + csize - 4) =
      GET h (bp + csize - 4) ||| 2 := by
    rw [pe2, GET_PUT_same, Nat.mod_eq_of_lt (or2_lt _ hW)]
  refine ⟨?_, ?_, e_next_final, ?_, ?_, ?_, ?_, ?_, ?_⟩
  · show bp + GET_SIZE h (HDRP bp) = bp + csize
    rw [hcs]
  · show bp + GET_SIZE (place h bp asize) (bp - 4) = bp + csize
    unfold GET_SIZE
    rw [e_hdr_final, size_decode _ _ hmod hlt haa]
  · unfold GET_SIZE
    rw [e_next_final, or2_size]
  · unfold GET_ALLOC
    rw [e_next_final, or2_alloc]
  · unfold GET_PREV_ALLOC
    rw [e_next_final, or2_prev]
  · unfold GET_SIZE
    rw [e_hdr_final, size_decode _ _ hmod hlt haa]
  · unfold GET_ALLOC
    rw [e_hdr_final, alloc_decode _ _ hmod haa, hodd]
  · unfold GET_PREV_ALLOC
    rw [e_hdr_final, prev_decode _ _ hmod haa, haa2]
    rfl

/-- Witness for C5 at the concrete heap c5Heap: free 16-byte block at 104
taken whole for asize = 16; the epilogue header at 116 only gains its
prev_alloc bit. -/
theorem c5_place_whole_frame_witness :
    NEXT_BLKP c5Heap 104 = 104 + 16 ∧
    NEXT_BLKP (place c5Heap 104 16) 104 = 104 + 16 ∧
    GET (place c5Heap 104 16) (104 + 16 - 4) = GET c5Heap (104 + 16 - 4) ||| 2 ∧
    GET_SIZE (place c5Heap 104 16) (104 + 16 - 4) = GET_SIZE c5Heap (104 + 16 - 4) ∧
    GET_ALLOC (place c5Heap 104 16) (104 + 16 - 4) = GET_ALLOC c5Heap (104 + 16 - 4) ∧
    GET_PREV_ALLOC (place c5Heap 104 16) (104 + 16 - 4) = 2 ∧
    GET_SIZE (place c5Heap 104 16) (104 - 4) = 16 ∧
    GET_ALLOC (place c5Heap 104 16) (104 - 4) = 1 ∧
    GET_PREV_ALLOC (place c5Heap 104 16) (104 - 4) = GET_PREV_ALLOC c5Heap (104 - 4) :=
  c5_place_whole_frame c5Heap 104 16 16 (by decide) (by decide) (by decide) (by decide)
    (by decide) (by decide) (by decide) (by decide)

/-! ### C7: first-fit search across the segregated lists -/

theorem walk_correct (h : Heap) (S : Nat) :
    ∀ (L : List Nat) (p fuel : Nat), chainFrom h p L → L.length < fuel →
      walk h S fuel p = L.find? (fun bp => decide (S ≤ GET_SIZE h (HDRP bp))) := by
  intro L
  induction L with
  | nil =>
    intro p fuel hc hf
    obtain ⟨f, rfl⟩ : ∃ f, fuel = f + 1 := ⟨fuel - 1, by omega⟩
    have hp : p = 0 := hc
    subst hp
    rfl
  | cons x xs ih =>
    intro p fuel hc hf
    obtain ⟨f, rfl⟩ : ∃ f, fuel = f + 1 := ⟨fuel - 1, by omega⟩
    obtain ⟨hpx, hx0, hcs⟩ := hc
    rw [hpx]
    simp only [walk]
    rw [if_neg hx0]
    by_cases hfit : S ≤ GET_SIZE h (HDRP x)
    · rw [if_pos hfit, List.find?_cons_of_pos _ (by simpa using hfit)]
    · rw [if_neg hfit, List.find?_cons_of_neg _ (by simpa using hfit)]
      apply ih
      · exact hcs
      · have : xs.length + 1 < f + 1 := by simpa using hf
        omega

theorem find_fit_outer_correct (h : Heap) (S : Nat) (Ls : Nat → List Nat) :
    ∀ (n i : Nat),
      (∀ j, i ≤ j → j < i + n → chainFrom h (headPtr h j) (Ls j) ∧ (Ls j).length < h.brk) →
      find_fit_outer h S n i =
        (concatLists Ls i n).find? (fun bp => decide (S ≤ GET_SIZE h (HDRP bp))) := by
  intro n
  induction n with
  | zero =>
    intro i _
    rfl
  | succ n ih =>
    intro i hyp
    have hi := hyp i (le_refl i) (by omega)
    have hwc := walk_correct h S (Ls i) (headPtr h i) h.brk hi.1 hi.2
    unfold headPtr at hwc
    simp only [find_fit_outer]
    rw [hwc]
    show _ = (Ls i ++ concatLists Ls (i + 1) n).find? _
    rw [List.find?_append]
    cases hfi : (Ls i).find? (fun bp => decide (S ≤ GET_SIZE h (HDRP bp))) with
    | some bp => simp
    | none =>
      simp only [Option.none_or]
      exact ih (i + 1) (fun j hj1 hj2 => hyp j (by omega) (by omega))

/-- C7: for every adjusted request size S (at least 16 and within the
32-bit size domain), first-fit starts at the free list of class
get_list(S) and scans each list head-to-tail, returning the first block
encountered whose size is at least S, advancing to the next larger class
when a list is exhausted; it returns null exactly when every class from
get_list(S) through 19 contains no block of size at least S.  The lists
are described by their realizing chains Ls; the walk fuel h.brk never
binds because each chain is shorter than it. -/
theorem c7_find_fit (h : Heap) (S : Nat) (Ls : Nat → List Nat)
    (h16 : 16 ≤ S) (h32 : S < 4294967296)
    (hw : ∀ j, j < 20 → get_list S ≤ j →
      chainFrom h (headPtr h j) (Ls j) ∧ (Ls j).length < h.brk) :
    find_fit h S =
      (concatLists Ls (get_list S) (20 - get_list S)).find?
        (fun bp => decide (S ≤ GET_SIZE h (HDRP bp))) ∧
    (find_fit h S = none ↔
      ∀ bp ∈ concatLists Ls (get_list S) (20 - get_list S), GET_SIZE h (HDRP bp) < S) := by
  have hcls : get_list S ≤ 19 := get_list_le19 S h16 h32
  have hmain : find_fit h S =
      (concatLists Ls (get_list S) (20 - get_list S)).find?
        (fun bp => decide (S ≤ GET_SIZE h (HDRP bp))) := by
    unfold find_fit
    dsimp only
    exact find_fit_outer_correct h S Ls (20 - get_list S) (get_list S)
      (fun j hj1 hj2 => hw j (by omega) hj1)
  refine ⟨hmain, ?_, ?_⟩
  · intro hn bp hbp
    have := List.find?_eq_none.mp (hmain ▸ hn) bp hbp
    simp at this
    omega
  · intro hall
    rw [hmain]
    apply List.find?_eq_none.mpr
    intro x hx
    have := hall x hx
    simp
    omega

/-- Witness for C7 on the post-init heap: one free block 104 in class 12,
request size 16 scanned from class 0. -/
theorem c7_find_fit_witness :
    find_fit initHeap 16 =
      (concatLists (fun i => if i = 12 then [104] else []) (get_list 16)
        (20 - get_list 16)).find?
        (fun bp => decide (16 ≤ GET_SIZE initHeap (HDRP bp))) ∧
    (find_fit initHeap 16 = none ↔
      ∀ bp ∈ concatLists (fun i => if i = 12 then [104] else []) (get_list 16)
        (20 - get_list 16), GET_SIZE initHeap (HDRP bp) < 16) :=
  c7_find_fit initHeap 16 (fun i => if i = 12 then [104] else [])
    (by norm_num) (by norm_num) (by decide)

/-! ### Free-list chain machinery (for the coalesce claim) -/

theorem sep8_symm (x y : Nat) (hxy : sep8 x y) : sep8 y x := by
  unfold sep8 at *
  omega

theorem sep8_ne (x y : Nat) (hxy : sep8 x y) : x ≠ y := by
  unfold sep8 at hxy
  omega

theorem get_succ_congr (h h' : Heap) (x : Nat)
    (hg : GET h' (x + 4) = GET h (x + 4)) (hs : h'.heap_start = h.heap_start) :
    get_succ h' x = get_succ h x := by
  unfold get_succ SUCC get_addr
  rw [hg, hs]

theorem get_pred_congr (h h' : Heap) (x : Nat)
    (hg : GET h' x = GET h x) (hs : h'.heap_start = h.heap_start) :
    get_pred h' x = get_pred h x := by
  unfold get_pred PRED get_addr
  rw [hg, hs]

theorem chainFrom_iff_chainSeg (h : Heap) (L : List Nat) :
    ∀ p, chainFrom h p L ↔ chainSeg h p 0 L := by
  induction L with
  | nil => intro p; exact Iff.rfl
  | cons x xs ih =>
    intro p
    show (p = x ∧ x ≠ 0 ∧ chainFrom h (get_succ h x) xs) ↔
      (p = x ∧ x ≠ 0 ∧ chainSeg h (get_succ h x) 0 xs)
    rw [ih]

theorem chainSeg_append (h : Heap) :
    ∀ (A B : List Nat) (p q : Nat),
      chainSeg h p q (A ++ B) ↔ ∃ r, chainSeg h p r A ∧ chainSeg h r q B := by
  intro A
  induction A with
  | nil =>
    intro B p q
    constructor
    · intro hB
      exact ⟨p, rfl, hB⟩
    · rintro ⟨r, hpr, hB⟩
      have hpr' : p = r := hpr
      rw [hpr']
      exact hB
  | cons x xs ih =>
    intro B p q
    constructor
    · rintro ⟨hpx, hx0, hrest⟩
      obtain ⟨r, h1, h2⟩ := (ih B (get_succ h x) q).mp hrest
      exact ⟨r, ⟨hpx, hx0, h1⟩, h2⟩
    · rintro ⟨r, ⟨hpx, hx0, h1⟩, h2⟩
      exact ⟨hpx, hx0, (ih B (get_succ h x) q).mpr ⟨r, h1, h2⟩⟩

theorem chainSeg_frame (h h' : Heap) (hs : h'.heap_start = h.heap_start) :
    ∀ (L : List Nat) (p q : Nat), (∀ x ∈ L, GET h' (x + 4) = GET h (x + 4)) →
      chainSeg h p q L → chainSeg h' p q L := by
  intro L
  induction L with
  | nil =>
    intro p q _ hc
    exact hc
  | cons x xs ih =>
    intro p q hg hc
    obtain ⟨h1, h2, h3⟩ := hc
    refine ⟨h1, h2, ?_⟩
    rw [get_succ_congr h h' x (hg x (by simp)) hs]
    exact ih _ _ (fun y hy => hg y (by simp [hy])) h3

theorem predFrom_append (h : Heap) :
    ∀ (A B : List Nat) (q : Nat),
      predFrom h q (A ++ B) ↔ predFrom h q A ∧ predFrom h (A.getLastD q) B := by
  intro A
  induction A with
  | nil =>
    intro B q
    show predFrom h q B ↔ True ∧ predFrom h q B
    rw [true_and]
  | cons x xs ih =>
    intro B q
    show (get_pred h x = q ∧ predFrom h x (xs ++ B)) ↔
      (get_pred h x = q ∧ predFrom h x xs) ∧ predFrom h ((x :: xs).getLastD q) B
    rw [ih, List.getLastD_cons, and_assoc]

theorem predFrom_frame (h h' : Heap) (hs : h'.heap_start = h.heap_start) :
    ∀ (L : List Nat) (q : Nat), (∀ x ∈ L, GET h' x = GET h x) →
      predFrom h q L → predFrom h' q L := by
  intro L
  induction L with
  | nil =>
    intro q _ _
    trivial
  | cons x xs ih =>
    intro q hg hc
    obtain ⟨h1, h2⟩ := hc
    refine ⟨?_, ih x (fun y hy => hg y (by simp [hy])) h2⟩
    rw [get_pred_congr h h' x (hg x (by simp)) hs]
    exact h1

theorem get_offset_lt (h : Heap) (x : Nat) : get_offset h x < 4294967296 := by
  unfold get_offset
  split
  · omega
  · norm_num

theorem get_addr_offset (h : Heap) (x : Nat) (hok : okPtr h x) :
    get_addr h (get_offset h x) = x := by
  obtain ⟨h1, h2, h3⟩ := hok
  unfold get_offset get_addr
  rw [if_pos (show x ≠ 0 by omega)]
  have e1 : (((x : Int) - (h.heap_start : Int)) % 4294967296).toNat = x - h.heap_start := by
    omega
  rw [e1]
  dsimp only
  rw [Nat.mod_eq_of_lt h2, if_neg (by omega)]
  omega

theorem del_list_heap_start (h : Heap) (bp : Nat) :
    (del_list h bp).heap_start = h.heap_start := by
  unfold del_list
  dsimp only
  repeat' split
  all_goals rfl

theorem add_start_heap_start (h : Heap) (bp : Nat) :
    (add_start h bp).heap_start = h.heap_start := by
  unfold add_start
  dsimp only
  repeat' split
  all_goals rfl

theorem get_offset_eq (h : Heap) (x : Nat) (hok : okPtr h x) :
    get_offset h x = x - h.heap_start := by
  obtain ⟨h1, h2, h3⟩ := hok
  unfold get_offset
  rw [if_pos (show x ≠ 0 by omega)]
  omega

theorem get_offset_ne_zero (h : Heap) (x : Nat) (hok : okPtr h x) :
    get_offset h x ≠ 0 := by
  rw [get_offset_eq h x hok]
  obtain ⟨h1, _, _⟩ := hok
  omega

theorem get_addr_congr (h h' : Heap) (o : Nat) (hs : h'.heap_start = h.heap_start) :
    get_addr h' o = get_addr h o := by
  unfold get_addr
  rw [hs]

theorem get_offset_congr (h h' : Heap) (x : Nat) (hs : h'.heap_start = h.heap_start) :
    get_offset h' x = get_offset h x := by
  unfold get_offset
  rw [hs]

theorem GET_PUT2_out (h : Heap) (t1 v1 t2 v2 a : Nat) (d1 : disj4 a t1) (d2 : disj4 a t2) :
    GET (PUT (PUT h t1 v1) t2 v2) a = GET h a := by
  rw [GET_PUT_out _ _ _ _ d2, GET_PUT_out _ _ _ _ d1]

theorem okPtr_congr (h h' : Heap) (x : Nat) (hs : h'.heap_start = h.heap_start)
    (hok : okPtr h x) : okPtr h' x := by
  unfold okPtr at *
  rw [hs]
  exact hok

theorem disj4_of_sep8 (x y : Nat) (hs : sep8 x y) :
    disj4 x y ∧ disj4 x (y + 4) ∧ disj4 (x + 4) y ∧ disj4 (x + 4) (y + 4) := by
  unfold sep8 at hs
  unfold disj4
  omega

theorem disj4_of_root (r x : Nat) (hr : r + 4 ≤ x ∨ x + 8 ≤ r) :
    disj4 r x ∧ disj4 r (x + 4) ∧ disj4 x r ∧ disj4 (x + 4) r := by
  unfold disj4
  omega

theorem disj4_adj (x : Nat) : disj4 x (x + 4) ∧ disj4 (x + 4) x := by
  unfold disj4
  omega

/-- Removing a block by del_list turns a well-formed class list realizing L
into one realizing L.erase bp, and leaves every word away from the root and
the link words unchanged. -/
theorem del_list_erase (h : Heap) (i : Nat) (L : List Nat) (bp : Nat)
    (hwf : wfList h i L) (hmem : bp ∈ L)
    (hcls : get_list (GET_SIZE h (HDRP bp)) = i) :
    wfList (del_list h bp) i (L.erase bp) ∧
    (∀ a, disj4 a (rootAddr h i) → (∀ x ∈ L, disj4 a x ∧ disj4 a (x + 4)) →
      GET (del_list h bp) a = GET h a) := by
  obtain ⟨hchain, hpred, hpw, hok, hrootd⟩ := hwf
  obtain ⟨A, B, rfl⟩ := List.append_of_mem hmem
  obtain ⟨hpwA, hpwBp, hsepAB⟩ := List.pairwise_append.mp hpw
  obtain ⟨hsep_bpB, hpwB⟩ := List.pairwise_cons.mp hpwBp
  have hcs := (chainFrom_iff_chainSeg h _ _).mp hchain
  obtain ⟨r, hA, hbpB⟩ := (chainSeg_append h A (bp :: B) _ 0).mp hcs
  obtain ⟨hrbp, hbp0, hBseg⟩ := hbpB
  rw [hrbp] at hA
  obtain ⟨hbp_pred, hpredB⟩ := (predFrom_append h A (bp :: B) 0).mp hpred
  have hst : (del_list h bp).heap_start = h.heap_start := del_list_heap_start h bp
  have hlp : (del_list h bp).heap_listp = h.heap_listp := del_list_heap_listp h bp
  have hra : rootAddr (del_list h bp) i = rootAddr h i := by
    unfold rootAddr
    rw [hlp]
  obtain ⟨hbp_last, hpredB'⟩ := hpredB
  -- the frame conjunct, independent of the shape of A and B
  have hframe : ∀ a, disj4 a (rootAddr h i) →
      (∀ x ∈ A ++ bp :: B, disj4 a x ∧ disj4 a (x + 4)) →
      GET (del_list h bp) a = GET h a := by
    intro a ha1 ha2
    apply del_list_frame
    · rw [hcls]
      exact ha1
    · intro hne
      rcases List.eq_nil_or_concat A with rfl | ⟨A', w, hAw⟩
      · rw [hbp_last] at hne
        simp [List.getLastD] at hne
      · rw [List.concat_eq_append] at hAw
        have hpdw : get_pred h bp = w := by
          rw [hbp_last, hAw, List.getLastD_concat]
        rw [hpdw]
        have hwmem : w ∈ A ++ bp :: B := by
          rw [hAw]
          simp
        exact (ha2 w hwmem).2
    · intro hne
      cases B with
      | nil =>
        have h0 : get_succ h bp = 0 := hBseg
        exact absurd h0 hne
      | cons b B' =>
        obtain ⟨hscb, hb0, _⟩ := hBseg
        rw [hscb]
        have hbmem : b ∈ A ++ bp :: b :: B' := by simp
        exact (ha2 b hbmem).1
  have hbpA : bp ∉ A := fun hbpA =>
    (sep8_ne _ _ (hsepAB bp hbpA bp (by simp))) rfl
  have herase : (A ++ bp :: B).erase bp = A ++ B := by
    rw [List.erase_append_right _ hbpA, List.erase_cons_head]
  rw [herase]
  -- components of well-formedness that do not depend on the splice
  have hw3 : List.Pairwise sep8 (A ++ B) := by
    refine hpw.sublist ?_
    exact (List.sublist_cons_self bp B).append_left A
  have hmemAB : ∀ x ∈ A ++ B, x ∈ A ++ bp :: B := by
    intro x hx
    rcases List.mem_append.mp hx with hx | hx
    · exact List.mem_append.mpr (Or.inl hx)
    · exact List.mem_append.mpr (Or.inr (by simp [hx]))
  have hw4 : ∀ x ∈ A ++ B, okPtr (del_list h bp) x := fun x hx =>
    okPtr_congr h _ x hst (hok x (hmemAB x hx))
  have hw5 : ∀ x ∈ A ++ B,
      rootAddr (del_list h bp) i + 4 ≤ x ∨ x + 8 ≤ rootAddr (del_list h bp) i := by
    intro x hx
    rw [hra]
    exact hrootd x (hmemAB x hx)
  refine ⟨⟨?_, ?_, hw3, hw4, hw5⟩, hframe⟩ <;> clear hframe
  case _ =>
    -- chain realization of A ++ B after the splice
    rcases List.eq_nil_or_concat A with rfl | ⟨A', w, hAw⟩
    · -- bp was the head of the list
      have hpd0 : get_pred h bp = 0 := by
        rw [hbp_last]
        rfl
      cases B with
      | nil =>
        have hsc0 : get_succ h bp = 0 := hBseg
        have hdel : del_list h bp = PUT h (rootAddr h i) 0 := by
          unfold del_list
          dsimp only
          rw [hcls, if_pos ⟨hpd0, hsc0⟩]
        show chainFrom (del_list h bp) (headPtr (del_list h bp) i) []
        show headPtr (del_list h bp) i = 0
        show get_addr (del_list h bp) (GET (del_list h bp) (rootAddr (del_list h bp) i)) = 0
        rw [hra, hdel, GET_PUT_same]
        rfl
      | cons b B' =>
        obtain ⟨hscb, hb0, hsegB'⟩ := hBseg
        have hbmem : b ∈ ([] : List Nat) ++ bp :: b :: B' := by simp
        have hokb := hok b hbmem
        have hrootb := hrootd b hbmem
        have hdel : del_list h bp =
            PUT (PUT h (rootAddr h i) (get_offset h b)) b 0 := by
          unfold del_list
          dsimp only
          rw [hcls]
          rw [if_neg (by rw [hpd0, hscb]; simp [hb0]),
            if_pos ⟨hpd0, by rw [hscb]; exact hb0⟩, hscb]
        have hGroot : GET (del_list h bp) (rootAddr h i) = get_offset h b := by
          rw [hdel, GET_PUT_out _ _ _ _ (disj4_of_root _ _ hrootb).1,
            GET_PUT_same, Nat.mod_eq_of_lt (get_offset_lt h b)]
        have hhead : headPtr (del_list h bp) i = b := by
          show get_addr (del_list h bp)
            (GET (del_list h bp) (rootAddr (del_list h bp) i)) = b
          rw [hra, hGroot, get_addr_congr h _ _ hst, get_addr_offset h b hokb]
        show chainFrom (del_list h bp) (headPtr (del_list h bp) i) (b :: B')
        refine ⟨hhead, hb0, ?_⟩
        · rw [chainFrom_iff_chainSeg]
          have hsucc : get_succ (del_list h bp) b = get_succ h b := by
            apply get_succ_congr _ _ _ _ hst
            rw [hdel]
            exact GET_PUT2_out _ _ _ _ _ _ (disj4_of_root _ _ hrootb).2.2.2
              (disj4_adj b).2
          rw [hsucc]
          apply chainSeg_frame h _ hst
          · intro x hx
            rw [hdel]
            have hxmem : x ∈ ([] : List Nat) ++ bp :: b :: B' := by simp [hx]
            have hsbx : sep8 b x := (List.pairwise_cons.mp hpwB).1 x hx
            exact GET_PUT2_out _ _ _ _ _ _
              (disj4_of_root _ _ (hrootd x hxmem)).2.2.2
              (disj4_of_sep8 _ _ (sep8_symm _ _ hsbx)).2.2.1
          · exact hsegB'
    · -- bp had a predecessor w (the last element of A)
      rw [List.concat_eq_append] at hAw
      subst hAw
      have hpdw : get_pred h bp = w := by
        rw [hbp_last, List.getLastD_concat]
      have hwmem : w ∈ (A' ++ [w]) ++ bp :: B := by simp
      have hokw := hok w hwmem
      have hw0 : w ≠ 0 := by
        obtain ⟨h1, _, _⟩ := hokw
        omega
      have hrootw := hrootd w hwmem
      obtain ⟨r2, hA', hwseg⟩ := (chainSeg_append h A' [w] _ bp).mp hA
      obtain ⟨hr2w, _, hwtail⟩ := hwseg
      have hsuccw : get_succ h w = bp := hwtail
      rw [hr2w] at hA'
      obtain ⟨hpwA', hpwW, hsepA'w⟩ := List.pairwise_append.mp hpwA
      cases B with
      | nil =>
        have hsc0 : get_succ h bp = 0 := hBseg
        have hdel : del_list h bp = PUT h (w + 4) 0 := by
          unfold del_list
          dsimp only
          rw [hcls]
          rw [if_neg (by rw [hpdw, hsc0]; simp [hw0]),
            if_neg (by rw [hpdw, hsc0]; simp [hw0]),
            if_pos ⟨by rw [hpdw]; exact hw0, hsc0⟩, hpdw]
        have hhead : headPtr (del_list h bp) i = headPtr h i := by
          show get_addr (del_list h bp)
            (GET (del_list h bp) (rootAddr (del_list h bp) i)) = _
          rw [hra, hdel, GET_PUT_out _ _ _ _ (disj4_of_root _ _ hrootw).2.1]
          rfl
        show chainFrom (del_list h bp) (headPtr (del_list h bp) i) ((A' ++ [w]) ++ [])
        rw [List.append_nil, hhead, chainFrom_iff_chainSeg]
        refine (chainSeg_append _ _ _ _ _).mpr ⟨w, ?_, ?_⟩
        · apply chainSeg_frame h _ hst
          · intro x hx
            rw [hdel]
            have hsxw : sep8 x w := hsepA'w x hx w (by simp)
            exact GET_PUT_out _ _ _ _ (disj4_of_sep8 _ _ hsxw).2.2.2
          · exact hA'
        · refine ⟨rfl, hw0, ?_⟩
          have : GET (del_list h bp) (w + 4) = 0 := by
            rw [hdel, GET_PUT_same]
          show get_succ (del_list h bp) w = 0
          unfold get_succ SUCC
          dsimp only
          rw [this]
          rfl
      | cons b B' =>
        obtain ⟨hscb, hb0, hsegB'⟩ := hBseg
        have hbmem : b ∈ (A' ++ [w]) ++ bp :: b :: B' := by simp
        have hokb := hok b hbmem
        have hrootb := hrootd b hbmem
        have hswb : sep8 w b := hsepAB w (by simp) b (by simp)
        have hdel : del_list h bp =
            PUT (PUT h (w + 4) (get_offset h b)) b (get_offset h w) := by
          unfold del_list
          dsimp only
          rw [hcls]
          rw [if_neg (by rw [hpdw]; simp [hw0]),
            if_neg (by rw [hpdw]; simp [hw0]),
            if_neg (by rw [hscb]; simp [hb0]),
            hpdw, hscb,
            get_offset_congr h (PUT h (w + 4) (get_offset h b)) w rfl]
        have hhead : headPtr (del_list h bp) i = headPtr h i := by
          show get_addr (del_list h bp)
            (GET (del_list h bp) (rootAddr (del_list h bp) i)) = _
          rw [hra, hdel,
            GET_PUT2_out _ _ _ _ _ _ (disj4_of_root _ _ hrootw).2.1
              (disj4_of_root _ _ hrootb).1]
          rfl
        show chainFrom (del_list h bp) (headPtr (del_list h bp) i)
          ((A' ++ [w]) ++ b :: B')
        rw [hhead, chainFrom_iff_chainSeg]
        refine (chainSeg_append _ _ _ _ _).mpr ⟨b, ?_, ?_⟩
        · refine (chainSeg_append _ _ _ _ _).mpr ⟨w, ?_, ?_⟩
          · apply chainSeg_frame h _ hst
            · intro x hx
              rw [hdel]
              have hsxw : sep8 x w := hsepA'w x hx w (by simp)
              have hsxb : sep8 x b := hsepAB x (by simp [hx]) b (by simp)
              exact GET_PUT2_out _ _ _ _ _ _ (disj4_of_sep8 _ _ hsxw).2.2.2
                (disj4_of_sep8 _ _ hsxb).2.2.1
            · exact hA'
          · refine ⟨rfl, hw0, ?_⟩
            have hGw4 : GET (del_list h bp) (w + 4) = get_offset h b := by
              rw [hdel, GET_PUT_out _ _ _ _ (disj4_of_sep8 _ _ hswb).2.2.1,
                GET_PUT_same, Nat.mod_eq_of_lt (get_offset_lt h b)]
            show get_succ (del_list h bp) w = b
            unfold get_succ SUCC
            dsimp only
            rw [hGw4, if_neg (get_offset_ne_zero h b hokb),
              get_addr_congr h _ _ hst, get_addr_offset h b hokb]
        · refine ⟨rfl, hb0, ?_⟩
          have hsucc : get_succ (del_list h bp) b = get_succ h b := by
            apply get_succ_congr _ _ _ _ hst
            rw [hdel]
            exact GET_PUT2_out _ _ _ _ _ _
              (disj4_of_sep8 _ _ (sep8_symm _ _ hswb)).2.2.2 (disj4_adj b).2
          rw [hsucc]
          apply chainSeg_frame h _ hst
          · intro x hx
            rw [hdel]
            have hsbx : sep8 b x := (List.pairwise_cons.mp hpwB).1 x hx
            have hswx : sep8 x w := sep8_symm _ _ (hsepAB w (by simp) x (by simp [hx]))
            exact GET_PUT2_out _ _ _ _ _ _ (disj4_of_sep8 _ _ hswx).2.2.2
              (disj4_of_sep8 _ _ (sep8_symm _ _ hsbx)).2.2.1
          · exact hsegB'
  case _ =>
    -- predecessor links of A ++ B after the splice
    rcases List.eq_nil_or_concat A with rfl | ⟨A', w, hAw⟩
    · have hpd0 : get_pred h bp = 0 := by
        rw [hbp_last]
        rfl
      cases B with
      | nil =>
        show predFrom (del_list h bp) 0 []
        trivial
      | cons b B' =>
        obtain ⟨hscb, hb0, _⟩ := hBseg
        obtain ⟨hpredb, hpredB2⟩ := hpredB'
        have hbmem : b ∈ ([] : List Nat) ++ bp :: b :: B' := by simp
        have hrootb := hrootd b hbmem
        have hdel : del_list h bp =
            PUT (PUT h (rootAddr h i) (get_offset h b)) b 0 := by
          unfold del_list
          dsimp only
          rw [hcls]
          rw [if_neg (by rw [hpd0, hscb]; simp [hb0]),
            if_pos ⟨hpd0, by rw [hscb]; exact hb0⟩, hscb]
        show predFrom (del_list h bp) 0 (b :: B')
        refine ⟨?_, ?_⟩
        · have hGb : GET (del_list h bp) b = 0 := by
            rw [hdel, GET_PUT_same]
          show get_pred (del_list h bp) b = 0
          unfold get_pred PRED
          dsimp only
          rw [hGb]
          rfl
        · apply predFrom_frame h _ hst
          · intro x hx
            rw [hdel]
            have hxmem : x ∈ ([] : List Nat) ++ bp :: b :: B' := by simp [hx]
            have hsbx : sep8 b x := (List.pairwise_cons.mp hpwB).1 x hx
            exact GET_PUT2_out _ _ _ _ _ _
              (disj4_of_root _ _ (hrootd x hxmem)).2.2.1
              (disj4_of_sep8 _ _ (sep8_symm _ _ hsbx)).1
          · exact hpredB2
    · rw [List.concat_eq_append] at hAw
      subst hAw
      have hpdw : get_pred h bp = w := by
        rw [hbp_last, List.getLastD_concat]
      have hwmem : w ∈ (A' ++ [w]) ++ bp :: B := by simp
      have hokw := hok w hwmem
      have hw0 : w ≠ 0 := by
        obtain ⟨h1, _, _⟩ := hokw
        omega
      obtain ⟨hpwA', hpwW, hsepA'w⟩ := List.pairwise_append.mp hpwA
      have hAframe : ∀ t, ∀ x ∈ A' ++ [w], GET (PUT h (w + 4) t) x = GET h x := by
        intro t x hx
        by_cases hxw : x = w
        · subst hxw
          exact GET_PUT_out _ _ _ _ (disj4_adj x).1
        · have hxA' : x ∈ A' := by
            rcases List.mem_append.mp hx with h1 | h1
            · exact h1
            · simp at h1
              exact absurd h1 hxw
          have hsxw : sep8 x w := hsepA'w x hxA' w (by simp)
          exact GET_PUT_out _ _ _ _ (disj4_of_sep8 _ _ hsxw).2.1
      cases B with
      | nil =>
        have hsc0 : get_succ h bp = 0 := hBseg
        have hdel : del_list h bp = PUT h (w + 4) 0 := by
          unfold del_list
          dsimp only
          rw [hcls]
          rw [if_neg (by rw [hpdw, hsc0]; simp [hw0]),
            if_neg (by rw [hpdw, hsc0]; simp [hw0]),
            if_pos ⟨by rw [hpdw]; exact hw0, hsc0⟩, hpdw]
        show predFrom (del_list h bp) 0 ((A' ++ [w]) ++ [])
        rw [List.append_nil]
        apply predFrom_frame h _ hst
        · intro x hx
          rw [hdel]
          exact hAframe 0 x hx
        · exact hbp_pred
      | cons b B' =>
        obtain ⟨hscb, hb0, _⟩ := hBseg
        obtain ⟨hpredb, hpredB2⟩ := hpredB'
        have hbmem : b ∈ (A' ++ [w]) ++ bp :: b :: B' := by simp
        have hokb := hok b hbmem
        have hswb : sep8 w b := hsepAB w (by simp) b (by simp)
        have hdel : del_list h bp =
            PUT (PUT h (w + 4) (get_offset h b)) b (get_offset h w) := by
          unfold del_list
          dsimp only
          rw [hcls]
          rw [if_neg (by rw [hpdw]; simp [hw0]),
            if_neg (by rw [hpdw]; simp [hw0]),
            if_neg (by rw [hscb]; simp [hb0]),
            hpdw, hscb,
            get_offset_congr h (PUT h (w + 4) (get_offset h b)) w rfl]
        show predFrom (del_list h bp) 0 ((A' ++ [w]) ++ b :: B')
        refine (predFrom_append _ _ _ _).mpr ⟨?_, ?_⟩
        · apply predFrom_frame h _ hst
          · intro x hx
            rw [hdel]
            have hsxb : sep8 x b := hsepAB x (by simp [hx]) b (by simp)
            rw [GET_PUT_out _ _ _ _ (disj4_of_sep8 _ _ hsxb).1]
            exact hAframe (get_offset h b) x hx
          · exact hbp_pred
        · rw [List.getLastD_concat]
          refine ⟨?_, ?_⟩
          · have hGb : GET (del_list h bp) b = get_offset h w := by
              rw [hdel, GET_PUT_same, Nat.mod_eq_of_lt (get_offset_lt h w)]
            show get_pred (del_list h bp) b = w
            unfold get_pred PRED
            dsimp only
            rw [hGb, if_neg (get_offset_ne_zero h w hokw),
              get_addr_congr h _ _ hst, get_addr_offset h w hokw]
          · apply predFrom_frame h _ hst
            · intro x hx
              rw [hdel]
              have hsbx : sep8 b x := (List.pairwise_cons.mp hpwB).1 x hx
              have hswx : sep8 x w := sep8_symm _ _ (hsepAB w (by simp) x (by simp [hx]))
              exact GET_PUT2_out _ _ _ _ _ _ (disj4_of_sep8 _ _ hswx).2.1
                (disj4_of_sep8 _ _ (sep8_symm _ _ hsbx)).1
            · exact hpredB2

theorem rootAddr_congr (h h' : Heap) (i : Nat) (hlp : h'.heap_listp = h.heap_listp) :
    rootAddr h' i = rootAddr h i := by
  unfold rootAddr
  rw [hlp]

theorem headPtr_congr (h h' : Heap) (i : Nat) (hst : h'.heap_start = h.heap_start)
    (hlp : h'.heap_listp = h.heap_listp)
    (hroot : GET h' (rootAddr h i) = GET h (rootAddr h i)) :
    headPtr h' i = headPtr h i := by
  unfold headPtr
  rw [rootAddr_congr h h' i hlp, hroot, get_addr_congr h h' _ hst]

/-- A well-formed class list is preserved by any heap change that keeps the
root word, the link words of its members, heap_start and heap_listp. -/
theorem wfList_transport (h h' : Heap) (i : Nat) (L : List Nat)
    (hst : h'.heap_start = h.heap_start) (hlp : h'.heap_listp = h.heap_listp)
    (hroot : GET h' (rootAddr h i) = GET h (rootAddr h i))
    (hmem : ∀ x ∈ L, GET h' x = GET h x ∧ GET h' (x + 4) = GET h (x + 4))
    (hwf : wfList h i L) : wfList h' i L := by
  obtain ⟨hchain, hpred, hpw, hok, hrootd⟩ := hwf
  refine ⟨?_, ?_, hpw, ?_, ?_⟩
  · rw [headPtr_congr h h' i hst hlp hroot, chainFrom_iff_chainSeg]
    exact chainSeg_frame h h' hst L _ 0 (fun x hx => (hmem x hx).2)
      ((chainFrom_iff_chainSeg h L _).mp hchain)
  · exact predFrom_frame h h' hst L 0 (fun x hx => (hmem x hx).1) hpred
  · exact fun x hx => okPtr_congr h h' x hst (hok x hx)
  · rw [rootAddr_congr h h' i hlp]
    exact hrootd

theorem rootAddr_root_disj (h : Heap) (i j : Nat) (hij : i ≠ j) :
    disj4 (rootAddr h i) (rootAddr h j) := by
  unfold rootAddr disj4
  omega

theorem packb_lt (z b : Nat) (hb : b = 0 ∨ b = 2) (hz : z < 4294967296) :
    PACK z b < 4294967296 := by
  rcases hb with rfl | rfl
  · simpa [PACK] using hz
  · exact or2_lt z hz

theorem packb_size (z b : Nat) (hb : b = 0 ∨ b = 2) (hz8 : z % 8 = 0)
    (hz : z < 4294967296) : PACK z b &&& 4294967288 = z := by
  have hz0 : z &&& 4294967288 = z := by
    have := size_decode z 0 hz8 hz (by norm_num)
    simpa using this
  rcases hb with rfl | rfl
  · simpa [PACK] using hz0
  · unfold PACK
    rw [or2_size, hz0]

theorem packb_alloc (z b : Nat) (hb : b = 0 ∨ b = 2) (hz8 : z % 8 = 0) :
    PACK z b &&& 1 = 0 := by
  have hz0 : z &&& 1 = 0 := by
    have := alloc_decode z 0 hz8 (by norm_num)
    simpa using this
  rcases hb with rfl | rfl
  · simpa [PACK] using hz0
  · unfold PACK
    rw [or2_alloc, hz0]

theorem packb_prev (z b : Nat) (hb : b = 0 ∨ b = 2) (hz8 : z % 8 = 0) :
    PACK z b &&& 2 = b := by
  rcases hb with rfl | rfl
  · have := prev_decode z 0 hz8 (by norm_num)
    simpa [PACK] using this
  · unfold PACK
    exact or2_prev z

/-- Case 1 of coalesce: both physical neighbors allocated - no merge. -/
theorem coalesce_case1 (h : Heap) (bp s : Nat)
    (hs : GET_SIZE h (HDRP bp) = s) (hs8 : s % 8 = 0) (hspos : 8 ≤ s)
    (hbp : 8 ≤ bp)
    (hpa : GET_PREV_ALLOC h (HDRP bp) ≠ 0) (hna : GET_ALLOC h (HDRP (bp + s)) ≠ 0) :
    (coalesce h bp).2 = bp ∧
    GET_SIZE (coalesce h bp).1 (HDRP bp) = s ∧
    GET_ALLOC (coalesce h bp).1 (HDRP bp) = 0 ∧
    GET_PREV_ALLOC (coalesce h bp).1 (HDRP bp) = GET_PREV_ALLOC h (HDRP bp) ∧
    GET (coalesce h bp).1 (bp + s - 8) = GET (coalesce h bp).1 (HDRP bp) ∧
    GET_PREV_ALLOC (coalesce h bp).1 (HDRP (bp + s)) = 0 := by
  have hslt : s < 4294967296 := by
    rw [← hs]
    exact size_any_lt h (HDRP bp)
  have hlt2 : PACK s 2 < 4294967296 := packb_lt s 2 (Or.inr rfl) hslt
  have hs' : GET_SIZE h (bp - 4) = s := hs
  have hpa' : GET_PREV_ALLOC h (bp - 4) ≠ 0 := hpa
  have hna' : GET_ALLOC h (bp + s - 4) ≠ 0 := hna
  have hco : coalesce h bp =
      (PUT (PUT (PUT h (bp - 4) (PACK s 2)) (bp + s - 8) (PACK s 2)) (bp + s - 4)
        (GET (PUT (PUT h (bp - 4) (PACK s 2)) (bp + s - 8) (PACK s 2)) (bp + s - 4)
          &&& 4294967293), bp) := by
    unfold coalesce NEXT_BLKP FTRP HDRP
    dsimp only
    rw [hs']
    rw [if_pos ⟨hpa', hna'⟩]
    dsimp only
    have e1 : GET_SIZE (PUT h (bp - 4) (PACK s 2)) (bp - 4) = s := by
      unfold GET_SIZE
      rw [GET_PUT_same, Nat.mod_eq_of_lt hlt2, packb_size s 2 (Or.inr rfl) hs8 hslt]
    rw [e1]
    have e2 : GET_SIZE (PUT (PUT h (bp - 4) (PACK s 2)) (bp + s - 8) (PACK s 2))
        (bp - 4) = s := by
      unfold GET_SIZE
      rw [GET_PUT_out _ _ _ _ (by omega), GET_PUT_same, Nat.mod_eq_of_lt hlt2,
        packb_size s 2 (Or.inr rfl) hs8 hslt]
    rw [e2]
  have hga : GET (coalesce h bp).1 (bp - 4) = PACK s 2 := by
    rw [hco]
    dsimp only
    rw [GET_PUT_out _ _ _ _ (by omega), GET_PUT_out _ _ _ _ (by omega), GET_PUT_same,
      Nat.mod_eq_of_lt hlt2]
  have hgf : GET (coalesce h bp).1 (bp + s - 8) = PACK s 2 := by
    rw [hco]
    dsimp only
    rw [GET_PUT_out _ _ _ _ (by omega), GET_PUT_same, Nat.mod_eq_of_lt hlt2]
  refine ⟨by rw [hco], ?_, ?_, ?_, ?_, ?_⟩
  · show GET (coalesce h bp).1 (bp - 4) &&& 4294967288 = s
    rw [hga, packb_size s 2 (Or.inr rfl) hs8 hslt]
  · show GET (coalesce h bp).1 (bp - 4) &&& 1 = 0
    rw [hga, packb_alloc s 2 (Or.inr rfl) hs8]
  · show GET (coalesce h bp).1 (bp - 4) &&& 2 = GET h (bp - 4) &&& 2
    rw [hga, packb_prev s 2 (Or.inr rfl) hs8]
    rcases and2_cases (GET h (bp - 4)) with h0 | h2
    · exact absurd h0 hpa'
    · omega
  · show GET (coalesce h bp).1 (bp + s - 8) = GET (coalesce h bp).1 (bp - 4)
    rw [hgf, hga]
  · show GET (coalesce h bp).1 (bp + s - 4) &&& 2 = 0
    rw [hco]
    dsimp only
    rw [GET_PUT_same, Nat.mod_eq_of_lt (lt_of_le_of_lt Nat.and_le_left (GET_lt _ _)),
      clear2_prev]

/-- Case 2 of coalesce: only the next physical neighbor is free - it is
spliced out of its class list and bp grows over it. -/
theorem coalesce_case2 (h : Heap) (bp s sn jn : Nat) (Ln : List Nat)
    (hs : GET_SIZE h (HDRP bp) = s) (hs8 : s % 8 = 0) (hspos : 8 ≤ s) (hbp : 8 ≤ bp)
    (hpa : GET_PREV_ALLOC h (HDRP bp) ≠ 0) (hna : GET_ALLOC h (HDRP (bp + s)) = 0)
    (hsn : GET_SIZE h (HDRP (bp + s)) = sn) (hsn8 : sn % 8 = 0) (hsnpos : 8 ≤ sn)
    (hlt : s + sn < 4294967296)
    (hwf : wfList h jn Ln) (hmem : bp + s ∈ Ln) (hjn : get_list sn = jn)
    (haw1 : away h jn Ln (bp - 4)) (haw2 : away h jn Ln (bp + s - 4))
    (haw3 : away h jn Ln (bp + s + sn - 8)) (haw4 : away h jn Ln (bp + s + sn - 4)) :
    (coalesce h bp).2 = bp ∧
    GET_SIZE (coalesce h bp).1 (HDRP bp) = s + sn ∧
    GET_ALLOC (coalesce h bp).1 (HDRP bp) = 0 ∧
    GET_PREV_ALLOC (coalesce h bp).1 (HDRP bp) = GET_PREV_ALLOC h (HDRP bp) ∧
    GET (coalesce h bp).1 (bp + s + sn - 8) = GET (coalesce h bp).1 (HDRP bp) ∧
    GET_PREV_ALLOC (coalesce h bp).1 (HDRP (bp + s + sn)) = 0 ∧
    chainFrom (coalesce h bp).1 (headPtr (coalesce h bp).1 jn) (Ln.erase (bp + s)) := by
  have hs' : GET_SIZE h (bp - 4) = s := hs
  have hpa' : GET_PREV_ALLOC h (bp - 4) ≠ 0 := hpa
  have hna' : GET_ALLOC h (bp + s - 4) = 0 := hna
  have hsn' : GET_SIZE h (bp + s - 4) = sn := hsn
  have hss8 : (s + sn) % 8 = 0 := by omega
  have hlt2 : PACK (s + sn) 2 < 4294967296 := packb_lt _ 2 (Or.inr rfl) hlt
  obtain ⟨herase, hframe⟩ := del_list_erase h jn Ln (bp + s) hwf hmem
    (by rw [hsn]; exact hjn)
  have f1 : GET (del_list h (bp + s)) (bp - 4) = GET h (bp - 4) :=
    hframe _ haw1.1 haw1.2
  have f2 : GET (del_list h (bp + s)) (bp + s - 4) = GET h (bp + s - 4) :=
    hframe _ haw2.1 haw2.2
  have e0 : GET_SIZE (del_list h (bp + s)) (bp - 4) = s := by
    unfold GET_SIZE
    rw [f1]
    exact hs'
  have e1 : GET_SIZE (del_list h (bp + s)) (bp + s - 4) = sn := by
    unfold GET_SIZE
    rw [f2]
    exact hsn'
  have e2 : GET_SIZE (PUT (del_list h (bp + s)) (bp - 4) (PACK (s + sn) 2)) (bp - 4)
      = s + sn := by
    unfold GET_SIZE
    rw [GET_PUT_same, Nat.mod_eq_of_lt hlt2, packb_size _ 2 (Or.inr rfl) hss8 hlt]
  have e3 : GET_SIZE (PUT (PUT (del_list h (bp + s)) (bp - 4) (PACK (s + sn) 2))
      (bp + s + sn - 8) (PACK (s + sn) 2)) (bp - 4) = s + sn := by
    unfold GET_SIZE
    rw [GET_PUT_out _ _ _ _ (by omega), GET_PUT_same, Nat.mod_eq_of_lt hlt2,
      packb_size _ 2 (Or.inr rfl) hss8 hlt]
  have hco : coalesce h bp =
      (PUT (PUT (PUT (del_list h (bp + s)) (bp - 4) (PACK (s + sn) 2))
          (bp + s + sn - 8) (PACK (s + sn) 2)) (bp + s + sn - 4)
        (GET (PUT (PUT (del_list h (bp + s)) (bp - 4) (PACK (s + sn) 2))
            (bp + s + sn - 8) (PACK (s + sn) 2)) (bp + s + sn - 4) &&& 4294967293),
        bp) := by
    unfold coalesce NEXT_BLKP FTRP HDRP
    dsimp only
    rw [hs']
    rw [if_neg (by simp [hna']), if_pos ⟨hpa', hna'⟩]
    dsimp only
    rw [e0, e1, e2, ← Nat.add_assoc bp s sn, e3, ← Nat.add_assoc bp s sn]
  have hga : GET (coalesce h bp).1 (bp - 4) = PACK (s + sn) 2 := by
    rw [hco]
    dsimp only
    rw [GET_PUT_out _ _ _ _ (by omega), GET_PUT_out _ _ _ _ (by omega), GET_PUT_same,
      Nat.mod_eq_of_lt hlt2]
  have hgf : GET (coalesce h bp).1 (bp + s + sn - 8) = PACK (s + sn) 2 := by
    rw [hco]
    dsimp only
    rw [GET_PUT_out _ _ _ _ (by omega), GET_PUT_same, Nat.mod_eq_of_lt hlt2]
  have hW : ∀ a, disj4 a (bp - 4) → disj4 a (bp + s + sn - 8) →
      disj4 a (bp + s + sn - 4) →
      GET (coalesce h bp).1 a = GET (del_list h (bp + s)) a := by
    intro a d1 d2 d3
    rw [hco]
    dsimp only
    rw [GET_PUT_out _ _ _ _ d3, GET_PUT_out _ _ _ _ d2, GET_PUT_out _ _ _ _ d1]
  have hst1 : (del_list h (bp + s)).heap_start = h.heap_start :=
    del_list_heap_start h (bp + s)
  have hlp1 : (del_list h (bp + s)).heap_listp = h.heap_listp :=
    del_list_heap_listp h (bp + s)
  have hra1 : rootAddr (del_list h (bp + s)) jn = rootAddr h jn :=
    rootAddr_congr h _ jn hlp1
  have hwf' : wfList (coalesce h bp).1 jn (Ln.erase (bp + s)) := by
    refine wfList_transport (del_list h (bp + s)) (coalesce h bp).1 jn
      (Ln.erase (bp + s)) ?_ ?_ ?_ ?_ herase
    · rw [hco]
      rfl
    · rw [hco]
      rfl
    · rw [hra1]
      exact hW _ (disj4_symm _ _ haw1.1) (disj4_symm _ _ haw3.1)
        (disj4_symm _ _ haw4.1)
    · intro x hx
      have hx' : x ∈ Ln := List.mem_of_mem_erase hx
      constructor
      · exact hW x (disj4_symm _ _ (haw1.2 x hx').1) (disj4_symm _ _ (haw3.2 x hx').1)
          (disj4_symm _ _ (haw4.2 x hx').1)
      · exact hW (x + 4) (disj4_symm _ _ (haw1.2 x hx').2)
          (disj4_symm _ _ (haw3.2 x hx').2) (disj4_symm _ _ (haw4.2 x hx').2)
  refine ⟨by rw [hco], ?_, ?_, ?_, ?_, ?_, hwf'.1⟩
  · show GET (coalesce h bp).1 (bp - 4) &&& 4294967288 = s + sn
    rw [hga, packb_size _ 2 (Or.inr rfl) hss8 hlt]
  · show GET (coalesce h bp).1 (bp - 4) &&& 1 = 0
    rw [hga, packb_alloc _ 2 (Or.inr rfl) hss8]
  · show GET (coalesce h bp).1 (bp - 4) &&& 2 = GET h (bp - 4) &&& 2
    rw [hga, packb_prev _ 2 (Or.inr rfl) hss8]
    rcases and2_cases (GET h (bp - 4)) with h0 | h2
    · exact absurd h0 hpa'
    · omega
  · show GET (coalesce h bp).1 (bp + s + sn - 8) = GET (coalesce h bp).1 (bp - 4)
    rw [hgf, hga]
  · show GET (coalesce h bp).1 (bp + s + sn - 4) &&& 2 = 0
    rw [hco]
    dsimp only
    rw [GET_PUT_same, Nat.mod_eq_of_lt (lt_of_le_of_lt Nat.and_le_left (GET_lt _ _)),
      clear2_prev]

/-- Case 3 of coalesce: only the previous physical neighbor is free - it is
spliced out of its class list and grows over bp; the previous block pointer
is returned. -/
theorem coalesce_case3 (h : Heap) (bp s sp jp : Nat) (Lp : List Nat)
    (hs : GET_SIZE h (HDRP bp) = s) (hs8 : s % 8 = 0) (hspos : 8 ≤ s) (hbp : 8 ≤ bp)
    (hpa : GET_PREV_ALLOC h (HDRP bp) = 0) (hna : GET_ALLOC h (HDRP (bp + s)) ≠ 0)
    (hsp : GET_SIZE h (bp - 8) = sp) (hhp : GET_SIZE h (HDRP (bp - sp)) = sp)
    (hsp8 : sp % 8 = 0) (hsppos : 8 ≤ sp) (hspbp : sp + 8 ≤ bp)
    (hlt : s + sp < 4294967296)
    (hwf : wfList h jp Lp) (hmem : bp - sp ∈ Lp) (hjp : get_list sp = jp)
    (haw0 : away h jp Lp (bp - 8)) (haw1 : away h jp Lp (bp - 4))
    (haw2 : away h jp Lp (bp - sp - 4)) (haw3 : away h jp Lp (bp + s - 8))
    (haw4 : away h jp Lp (bp + s - 4)) :
    (coalesce h bp).2 = bp - sp ∧
    GET_SIZE (coalesce h bp).1 (HDRP (bp - sp)) = s + sp ∧
    GET_ALLOC (coalesce h bp).1 (HDRP (bp - sp)) = 0 ∧
    GET_PREV_ALLOC (coalesce h bp).1 (HDRP (bp - sp)) =
      GET_PREV_ALLOC h (HDRP (bp - sp)) ∧
    GET (coalesce h bp).1 (bp + s - 8) = GET (coalesce h bp).1 (HDRP (bp - sp)) ∧
    GET_PREV_ALLOC (coalesce h bp).1 (HDRP (bp + s)) = 0 ∧
    chainFrom (coalesce h bp).1 (headPtr (coalesce h bp).1 jp) (Lp.erase (bp - sp)) := by
  have hs' : GET_SIZE h (bp - 4) = s := hs
  have hpa' : GET_PREV_ALLOC h (bp - 4) = 0 := hpa
  have hna' : GET_ALLOC h (bp + s - 4) ≠ 0 := hna
  have hhp' : GET_SIZE h (bp - sp - 4) = sp := hhp
  have hss8 : (s + sp) % 8 = 0 := by omega
  obtain ⟨herase, hframe⟩ := del_list_erase h jp Lp (bp - sp) hwf hmem
    (by rw [hhp]; exact hjp)
  have f0 : GET (del_list h (bp - sp)) (bp - 8) = GET h (bp - 8) :=
    hframe _ haw0.1 haw0.2
  have f1 : GET (del_list h (bp - sp)) (bp - 4) = GET h (bp - 4) :=
    hframe _ haw1.1 haw1.2
  have f2 : GET (del_list h (bp - sp)) (bp - sp - 4) = GET h (bp - sp - 4) :=
    hframe _ haw2.1 haw2.2
  have e0 : GET_SIZE (del_list h (bp - sp)) (bp - 8) = sp := by
    unfold GET_SIZE
    rw [f0]
    exact hsp
  have e1 : GET_SIZE (del_list h (bp - sp)) (bp - 4) = s := by
    unfold GET_SIZE
    rw [f1]
    exact hs'
  have e2 : GET_SIZE (del_list h (bp - sp)) (bp - sp - 4) = sp := by
    unfold GET_SIZE
    rw [f2]
    exact hhp'
  have eA : GET_SIZE (PUT (del_list h (bp - sp)) (bp + s - 8) (PACK (s + sp) 2))
      (bp - 8) = sp := by
    unfold GET_SIZE
    rw [GET_PUT_out _ _ _ _ (by omega), f0]
    exact hsp
  have eB : GET_SIZE (PUT (del_list h (bp - sp)) (bp + s - 8) (PACK (s + sp) 0))
      (bp - 8) = sp := by
    unfold GET_SIZE
    rw [GET_PUT_out _ _ _ _ (by omega), f0]
    exact hsp
  set BB := if GET_PREV_ALLOC (del_list h (bp - sp)) (bp - sp - 4) ≠ 0 then (2 : Nat)
    else 0 with hBB
  have hBB02 : BB = 0 ∨ BB = 2 := by
    rw [hBB]
    split <;> simp
  have hlt2 : PACK (s + sp) BB < 4294967296 := packb_lt _ BB hBB02 hlt
  have eppa : GET_PREV_ALLOC (del_list h (bp - sp)) (bp - sp - 4) =
      GET h (bp - sp - 4) &&& 2 := by
    unfold GET_PREV_ALLOC
    rw [f2]
  have hBBppa : BB = GET h (bp - sp - 4) &&& 2 := by
    rcases and2_cases (GET h (bp - sp - 4)) with h0 | h2
    · rw [hBB, if_neg (by rw [eppa, h0]; simp), h0]
    · rw [hBB, if_pos (by rw [eppa, h2]; norm_num), h2]
  have eC : GET_SIZE (PUT (PUT (del_list h (bp - sp)) (bp + s - 8) (PACK (s + sp) BB))
      (bp - sp - 4) (PACK (s + sp) BB)) (bp - 8) = sp := by
    unfold GET_SIZE
    rw [GET_PUT_out _ _ _ _ (by omega), GET_PUT_out _ _ _ _ (by omega), f0]
    exact hsp
  have eD : GET_SIZE (PUT (PUT (del_list h (bp - sp)) (bp + s - 8) (PACK (s + sp) BB))
      (bp - sp - 4) (PACK (s + sp) BB)) (bp - sp - 4) = s + sp := by
    unfold GET_SIZE
    rw [GET_PUT_same, Nat.mod_eq_of_lt hlt2, packb_size _ BB hBB02 hss8 hlt]
  have hco : coalesce h bp =
      (PUT (PUT (PUT (del_list h (bp - sp)) (bp + s - 8) (PACK (s + sp) BB))
          (bp - sp - 4) (PACK (s + sp) BB)) (bp + s - 4)
        (GET (PUT (PUT (del_list h (bp - sp)) (bp + s - 8) (PACK (s + sp) BB))
            (bp - sp - 4) (PACK (s + sp) BB)) (bp + s - 4) &&& 4294967293),
        bp - sp) := by
    unfold coalesce NEXT_BLKP FTRP HDRP PREV_BLKP
    dsimp only
    rw [hs', hsp]
    rw [if_neg (by simp [hpa']), if_neg (by simp [hpa']), if_pos ⟨hpa', hna'⟩]
    dsimp only
    rw [e0, e2, e1, eA, eB]
    rw [← apply_ite (fun v => PUT (PUT (del_list h (bp - sp)) (bp + s - 8)
      (PACK (s + sp) v)) (bp - sp - 4) (PACK (s + sp) v))]
    rw [← hBB]
    rw [eC, eD]
    rw [show bp - sp + (s + sp) - 4 = bp + s - 4 from by omega]
  have hga : GET (coalesce h bp).1 (bp - sp - 4) = PACK (s + sp) BB := by
    rw [hco]
    dsimp only
    rw [GET_PUT_out _ _ _ _ (by omega), GET_PUT_same, Nat.mod_eq_of_lt hlt2]
  have hgf : GET (coalesce h bp).1 (bp + s - 8) = PACK (s + sp) BB := by
    rw [hco]
    dsimp only
    rw [GET_PUT_out _ _ _ _ (by omega), GET_PUT_out _ _ _ _ (by omega), GET_PUT_same,
      Nat.mod_eq_of_lt hlt2]
  have hW : ∀ a, disj4 a (bp + s - 8) → disj4 a (bp - sp - 4) →
      disj4 a (bp + s - 4) →
      GET (coalesce h bp).1 a = GET (del_list h (bp - sp)) a := by
    intro a d1 d2 d3
    rw [hco]
    dsimp only
    rw [GET_PUT_out _ _ _ _ d3, GET_PUT_out _ _ _ _ d2, GET_PUT_out _ _ _ _ d1]
  have hlp1 : (del_list h (bp - sp)).heap_listp = h.heap_listp :=
    del_list_heap_listp h (bp - sp)
  have hra1 : rootAddr (del_list h (bp - sp)) jp = rootAddr h jp :=
    rootAddr_congr h _ jp hlp1
  have hwf' : wfList (coalesce h bp).1 jp (Lp.erase (bp - sp)) := by
    refine wfList_transport (del_list h (bp - sp)) (coalesce h bp).1 jp
      (Lp.erase (bp - sp)) ?_ ?_ ?_ ?_ herase
    · rw [hco]
      rfl
    · rw [hco]
      rfl
    · rw [hra1]
      exact hW _ (disj4_symm _ _ haw3.1) (disj4_symm _ _ haw2.1)
        (disj4_symm _ _ haw4.1)
    · intro x hx
      have hx' : x ∈ Lp := List.mem_of_mem_erase hx
      constructor
      · exact hW x (disj4_symm _ _ (haw3.2 x hx').1) (disj4_symm _ _ (haw2.2 x hx').1)
          (disj4_symm _ _ (haw4.2 x hx').1)
      · exact hW (x + 4) (disj4_symm _ _ (haw3.2 x hx').2)
          (disj4_symm _ _ (haw2.2 x hx').2) (disj4_symm _ _ (haw4.2 x hx').2)
  refine ⟨by rw [hco], ?_, ?_, ?_, ?_, ?_, hwf'.1⟩
  · show GET (coalesce h bp).1 (bp - sp - 4) &&& 4294967288 = s + sp
    rw [hga, packb_size _ BB hBB02 hss8 hlt]
  · show GET (coalesce h bp).1 (bp - sp - 4) &&& 1 = 0
    rw [hga, packb_alloc _ BB hBB02 hss8]
  · show GET (coalesce h bp).1 (bp - sp - 4) &&& 2 = GET h (bp - sp - 4) &&& 2
    rw [hga, packb_prev _ BB hBB02 hss8]
    exact hBBppa
  · show GET (coalesce h bp).1 (bp + s - 8) = GET (coalesce h bp).1 (bp - sp - 4)
    rw [hgf, hga]
  · show GET (coalesce h bp).1 (bp + s - 4) &&& 2 = 0
    rw [hco]
    dsimp only
    rw [GET_PUT_same, Nat.mod_eq_of_lt (lt_of_le_of_lt Nat.and_le_left (GET_lt _ _)),
      clear2_prev]

/-- Case 4 of coalesce: both physical neighbors are free - each is spliced
out of its class list (the two classes assumed distinct here) and the
previous block grows over all three; the previous block pointer is
returned. -/
theorem coalesce_case4 (h : Heap) (bp s sn sp jn jp : Nat) (Ln Lp : List Nat)
    (hs : GET_SIZE h (HDRP bp) = s) (hs8 : s % 8 = 0) (hspos : 8 ≤ s) (hbp : 8 ≤ bp)
    (hpa : GET_PREV_ALLOC h (HDRP bp) = 0) (hna : GET_ALLOC h (HDRP (bp + s)) = 0)
    (hsn : GET_SIZE h (HDRP (bp + s)) = sn) (hsn8 : sn % 8 = 0) (hsnpos : 8 ≤ sn)
    (hfn : GET_SIZE h (bp + s + sn - 8) = sn)
    (hsp : GET_SIZE h (bp - 8) = sp) (hhp : GET_SIZE h (HDRP (bp - sp)) = sp)
    (hsp8 : sp % 8 = 0) (hsppos : 8 ≤ sp) (hspbp : sp + 8 ≤ bp)
    (hlt : s + sp + sn < 4294967296)
    (hwfp : wfList h jp Lp) (hpmem : bp - sp ∈ Lp) (hjp : get_list sp = jp)
    (hwfn : wfList h jn Ln) (hnmem : bp + s ∈ Ln) (hjn : get_list sn = jn)
    (hnejj : jp ≠ jn)
    (hLnjp : ∀ x ∈ Ln, rootAddr h jp + 4 ≤ x ∨ x + 8 ≤ rootAddr h jp)
    (hLpjn : ∀ x ∈ Lp, rootAddr h jn + 4 ≤ x ∨ x + 8 ≤ rootAddr h jn)
    (hcross : ∀ x ∈ Ln, ∀ y ∈ Lp, sep8 x y)
    (hp0 : away h jp Lp (bp - 8)) (hp1 : away h jp Lp (bp - 4))
    (hp2 : away h jp Lp (bp - sp - 4)) (hp3 : away h jp Lp (bp + s - 4))
    (hp4 : away h jp Lp (bp + s + sn - 8)) (hp5 : away h jp Lp (bp + s + sn - 4))
    (hn0 : away h jn Ln (bp - 8)) (hn1 : away h jn Ln (bp - 4))
    (hn2 : away h jn Ln (bp - sp - 4)) (hn3 : away h jn Ln (bp + s - 4))
    (hn4 : away h jn Ln (bp + s + sn - 8)) (hn5 : away h jn Ln (bp + s + sn - 4)) :
    (coalesce h bp).2 = bp - sp ∧
    GET_SIZE (coalesce h bp).1 (HDRP (bp - sp)) = s + sp + sn ∧
    GET_ALLOC (coalesce h bp).1 (HDRP (bp - sp)) = 0 ∧
    GET_PREV_ALLOC (coalesce h bp).1 (HDRP (bp - sp)) =
      GET_PREV_ALLOC h (HDRP (bp - sp)) ∧
    GET (coalesce h bp).1 (bp + s + sn - 8) = GET (coalesce h bp).1 (HDRP (bp - sp)) ∧
    GET_PREV_ALLOC (coalesce h bp).1 (HDRP (bp + s + sn)) = 0 ∧
    chainFrom (coalesce h bp).1 (headPtr (coalesce h bp).1 jp) (Lp.erase (bp - sp)) ∧
    chainFrom (coalesce h bp).1 (headPtr (coalesce h bp).1 jn) (Ln.erase (bp + s)) := by
  have hs' : GET_SIZE h (bp - 4) = s := hs
  have hpa' : GET_PREV_ALLOC h (bp - 4) = 0 := hpa
  have hna' : GET_ALLOC h (bp + s - 4) = 0 := hna
  have hsn' : GET_SIZE h (bp + s - 4) = sn := hsn
  have hhp' : GET_SIZE h (bp - sp - 4) = sp := hhp
  have hss8 : (s + sp + sn) % 8 = 0 := by omega
  obtain ⟨herase1, hframe1⟩ := del_list_erase h jp Lp (bp - sp) hwfp hpmem
    (by rw [hhp]; exact hjp)
  have hst1 : (del_list h (bp - sp)).heap_start = h.heap_start :=
    del_list_heap_start h (bp - sp)
  have hlp1 : (del_list h (bp - sp)).heap_listp = h.heap_listp :=
    del_list_heap_listp h (bp - sp)
  have hra1jn : rootAddr (del_list h (bp - sp)) jn = rootAddr h jn :=
    rootAddr_congr h _ jn hlp1
  have hra1jp : rootAddr (del_list h (bp - sp)) jp = rootAddr h jp :=
    rootAddr_congr h _ jp hlp1
  have hwf1n : wfList (del_list h (bp - sp)) jn Ln := by
    refine wfList_transport h (del_list h (bp - sp)) jn Ln hst1 hlp1 ?_ ?_ hwfn
    · exact hframe1 _ (rootAddr_root_disj h jn jp (Ne.symm hnejj))
        (fun x hx => ⟨(disj4_of_root _ _ (hLpjn x hx)).1,
          (disj4_of_root _ _ (hLpjn x hx)).2.1⟩)
    · intro x hx
      constructor
      · exact hframe1 x ((disj4_of_root _ _ (hLnjp x hx)).2.2.1)
          (fun y hy => ⟨(disj4_of_sep8 x y (hcross x hx y hy)).1,
            (disj4_of_sep8 x y (hcross x hx y hy)).2.1⟩)
      · exact hframe1 (x + 4) ((disj4_of_root _ _ (hLnjp x hx)).2.2.2)
          (fun y hy => ⟨(disj4_of_sep8 x y (hcross x hx y hy)).2.2.1,
            (disj4_of_sep8 x y (hcross x hx y hy)).2.2.2⟩)
  have f1n : GET (del_list h (bp - sp)) (bp + s - 4) = GET h (bp + s - 4) :=
    hframe1 _ hp3.1 hp3.2
  have hcls2 : get_list (GET_SIZE (del_list h (bp - sp)) (HDRP (bp + s))) = jn := by
    unfold GET_SIZE HDRP
    rw [f1n]
    rw [show GET h (bp + s - 4) &&& 4294967288 = sn from hsn]
    exact hjn
  obtain ⟨herase2, hframe2⟩ :=
    del_list_erase (del_list h (bp - sp)) jn Ln (bp + s) hwf1n hnmem hcls2
  have hst2 : (del_list (del_list h (bp - sp)) (bp + s)).heap_start =
      (del_list h (bp - sp)).heap_start := del_list_heap_start _ (bp + s)
  have hlp2 : (del_list (del_list h (bp - sp)) (bp + s)).heap_listp =
      (del_list h (bp - sp)).heap_listp := del_list_heap_listp _ (bp + s)
  have hra2jn : rootAddr (del_list (del_list h (bp - sp)) (bp + s)) jn =
      rootAddr h jn := by
    rw [rootAddr_congr _ _ jn hlp2, hra1jn]
  have hra2jp : rootAddr (del_list (del_list h (bp - sp)) (bp + s)) jp =
      rootAddr h jp := by
    rw [rootAddr_congr _ _ jp hlp2, hra1jp]
  have hwf2p : wfList (del_list (del_list h (bp - sp)) (bp + s)) jp
      (Lp.erase (bp - sp)) := by
    refine wfList_transport (del_list h (bp - sp)) _ jp (Lp.erase (bp - sp))
      hst2 hlp2 ?_ ?_ herase1
    · rw [hra1jp]
      exact hframe2 _ (by rw [hra1jn]; exact rootAddr_root_disj h jp jn hnejj)
        (fun x hx => ⟨(disj4_of_root _ _ (hLnjp x hx)).1,
          (disj4_of_root _ _ (hLnjp x hx)).2.1⟩)
    · intro x hx
      have hx' : x ∈ Lp := List.mem_of_mem_erase hx
      constructor
      · exact hframe2 x (by rw [hra1jn]; exact (disj4_of_root _ _ (hLpjn x hx')).2.2.1)
          (fun y hy => ⟨(disj4_of_sep8 x y (sep8_symm _ _ (hcross y hy x hx'))).1,
            (disj4_of_sep8 x y (sep8_symm _ _ (hcross y hy x hx'))).2.1⟩)
      · exact hframe2 (x + 4)
          (by rw [hra1jn]; exact (disj4_of_root _ _ (hLpjn x hx')).2.2.2)
          (fun y hy => ⟨(disj4_of_sep8 x y (sep8_symm _ _ (hcross y hy x hx'))).2.2.1,
            (disj4_of_sep8 x y (sep8_symm _ _ (hcross y hy x hx'))).2.2.2⟩)
  have hfr : ∀ a, disj4 a (rootAddr h jp) → (∀ x ∈ Lp, disj4 a x ∧ disj4 a (x + 4)) →
      disj4 a (rootAddr h jn) → (∀ x ∈ Ln, disj4 a x ∧ disj4 a (x + 4)) →
      GET (del_list (del_list h (bp - sp)) (bp + s)) a = GET h a := by
    intro a d1 d2 d3 d4
    rw [hframe2 a (by rw [hra1jn]; exact d3) d4, hframe1 a d1 d2]
  have fr0 : GET (del_list (del_list h (bp - sp)) (bp + s)) (bp - 8) = GET h (bp - 8) :=
    hfr _ hp0.1 hp0.2 hn0.1 hn0.2
  have fr1 : GET (del_list (del_list h (bp - sp)) (bp + s)) (bp - 4) = GET h (bp - 4) :=
    hfr _ hp1.1 hp1.2 hn1.1 hn1.2
  have fr2 : GET (del_list (del_list h (bp - sp)) (bp + s)) (bp - sp - 4) =
      GET h (bp - sp - 4) := hfr _ hp2.1 hp2.2 hn2.1 hn2.2
  have fr3 : GET (del_list (del_list h (bp - sp)) (bp + s)) (bp + s - 4) =
      GET h (bp + s - 4) := hfr _ hp3.1 hp3.2 hn3.1 hn3.2
  have fr4 : GET (del_list (del_list h (bp - sp)) (bp + s)) (bp + s + sn - 8) =
      GET h (bp + s + sn - 8) := hfr _ hp4.1 hp4.2 hn4.1 hn4.2
  have e1a : GET_SIZE (del_list h (bp - sp)) (bp - 4) = s := by
    unfold GET_SIZE
    rw [hframe1 _ hp1.1 hp1.2]
    exact hs'
  have g0 : GET_SIZE (del_list (del_list h (bp - sp)) (bp + s)) (bp - 8) = sp := by
    unfold GET_SIZE
    rw [fr0]
    exact hsp
  have g1 : GET_SIZE (del_list (del_list h (bp - sp)) (bp + s)) (bp - 4) = s := by
    unfold GET_SIZE
    rw [fr1]
    exact hs'
  have g2 : GET_SIZE (del_list (del_list h (bp - sp)) (bp + s)) (bp - sp - 4) = sp := by
    unfold GET_SIZE
    rw [fr2]
    exact hhp'
  have g3 : GET_SIZE (del_list (del_list h (bp - sp)) (bp + s)) (bp + s - 4) = sn := by
    unfold GET_SIZE
    rw [fr3]
    exact hsn'
  have g4 : GET_SIZE (del_list (del_list h (bp - sp)) (bp + s)) (bp + s + sn - 8)
      = sn := by
    unfold GET_SIZE
    rw [fr4]
    exact hfn
  have eA1 : GET_SIZE (PUT (del_list (del_list h (bp - sp)) (bp + s)) (bp - sp - 4)
      (PACK (s + sp + sn) 2)) (bp - 4) = s := by
    unfold GET_SIZE
    rw [GET_PUT_out _ _ _ _ (by omega)]
    exact g1
  have eA2 : GET_SIZE (PUT (del_list (del_list h (bp - sp)) (bp + s)) (bp - sp - 4)
      (PACK (s + sp + sn) 2)) (bp + s - 4) = sn := by
    unfold GET_SIZE
    rw [GET_PUT_out _ _ _ _ (by omega)]
    exact g3
  have eB1 : GET_SIZE (PUT (del_list (del_list h (bp - sp)) (bp + s)) (bp - sp - 4)
      (PACK (s + sp + sn) 0)) (bp - 4) = s := by
    unfold GET_SIZE
    rw [GET_PUT_out _ _ _ _ (by omega)]
    exact g1
  have eB2 : GET_SIZE (PUT (del_list (del_list h (bp - sp)) (bp + s)) (bp - sp - 4)
      (PACK (s + sp + sn) 0)) (bp + s - 4) = sn := by
    unfold GET_SIZE
    rw [GET_PUT_out _ _ _ _ (by omega)]
    exact g3
  set BB := if GET_PREV_ALLOC (del_list (del_list h (bp - sp)) (bp + s))
      (bp - sp - 4) ≠ 0 then (2 : Nat) else 0 with hBB
  have hBB02 : BB = 0 ∨ BB = 2 := by
    rw [hBB]
    split <;> simp
  have hlt2 : PACK (s + sp + sn) BB < 4294967296 := packb_lt _ BB hBB02 hlt
  have eppa : GET_PREV_ALLOC (del_list (del_list h (bp - sp)) (bp + s))
      (bp - sp - 4) = GET h (bp - sp - 4) &&& 2 := by
    unfold GET_PREV_ALLOC
    rw [fr2]
  have hBBppa : BB = GET h (bp - sp - 4) &&& 2 := by
    rcases and2_cases (GET h (bp - sp - 4)) with h0 | h2
    · rw [hBB, if_neg (by rw [eppa, h0]; simp), h0]
    · rw [hBB, if_pos (by rw [eppa, h2]; norm_num), h2]
  have eC : GET_SIZE (PUT (PUT (del_list (del_list h (bp - sp)) (bp + s))
      (bp - sp - 4) (PACK (s + sp + sn) BB)) (bp + s + sn - 8)
      (PACK (s + sp + sn) BB)) (bp - 8) = sp := by
    unfold GET_SIZE
    rw [GET_PUT_out _ _ _ _ (by omega), GET_PUT_out _ _ _ _ (by omega), fr0]
    exact hsp
  have eD : GET_SIZE (PUT (PUT (del_list (del_list h (bp - sp)) (bp + s))
      (bp - sp - 4) (PACK (s + sp + sn) BB)) (bp + s + sn - 8)
      (PACK (s + sp + sn) BB)) (bp - sp - 4) = s + sp + sn := by
    unfold GET_SIZE
    rw [GET_PUT_out _ _ _ _ (by omega), GET_PUT_same, Nat.mod_eq_of_lt hlt2,
      packb_size _ BB hBB02 hss8 hlt]
  have hco : coalesce h bp =
      (PUT (PUT (PUT (del_list (del_list h (bp - sp)) (bp + s)) (bp - sp - 4)
          (PACK (s + sp + sn) BB)) (bp + s + sn - 8) (PACK (s + sp + sn) BB))
        (bp + s + sn - 4)
        (GET (PUT (PUT (del_list (del_list h (bp - sp)) (bp + s)) (bp - sp - 4)
            (PACK (s + sp + sn) BB)) (bp + s + sn - 8) (PACK (s + sp + sn) BB))
          (bp + s + sn - 4) &&& 4294967293),
        bp - sp) := by
    unfold coalesce NEXT_BLKP FTRP HDRP PREV_BLKP
    dsimp only
    rw [hs', hsp]
    rw [if_neg (by simp [hpa']), if_neg (by simp [hpa']), if_neg (by simp [hna'])]
    dsimp only
    rw [e1a]
    rw [g0, g2, g1, g3, g4]
    rw [eA1, eA2, eB1, eB2]
    rw [← apply_ite (fun v => PUT (PUT (del_list (del_list h (bp - sp)) (bp + s))
      (bp - sp - 4) (PACK (s + sp + sn) v)) (bp + s + sn - 8) (PACK (s + sp + sn) v))]
    rw [← hBB]
    rw [eC, eD]
    rw [show bp - sp + (s + sp + sn) - 4 = bp + s + sn - 4 from by omega]
  have hga : GET (coalesce h bp).1 (bp - sp - 4) = PACK (s + sp + sn) BB := by
    rw [hco]
    dsimp only
    rw [GET_PUT_out _ _ _ _ (by omega), GET_PUT_out _ _ _ _ (by omega), GET_PUT_same,
      Nat.mod_eq_of_lt hlt2]
  have hgf : GET (coalesce h bp).1 (bp + s + sn - 8) = PACK (s + sp + sn) BB := by
    rw [hco]
    dsimp only
    rw [GET_PUT_out _ _ _ _ (by omega), GET_PUT_same, Nat.mod_eq_of_lt hlt2]
  have hW : ∀ a, disj4 a (bp - sp - 4) → disj4 a (bp + s + sn - 8) →
      disj4 a (bp + s + sn - 4) →
      GET (coalesce h bp).1 a = GET (del_list (del_list h (bp - sp)) (bp + s)) a := by
    intro a d1 d2 d3
    rw [hco]
    dsimp only
    rw [GET_PUT_out _ _ _ _ d3, GET_PUT_out _ _ _ _ d2, GET_PUT_out _ _ _ _ d1]
  have hwfp' : wfList (coalesce h bp).1 jp (Lp.erase (bp - sp)) := by
    refine wfList_transport (del_list (del_list h (bp - sp)) (bp + s))
      (coalesce h bp).1 jp (Lp.erase (bp - sp)) ?_ ?_ ?_ ?_ hwf2p
    · rw [hco]
      rfl
    · rw [hco]
      rfl
    · rw [hra2jp]
      exact hW _ (disj4_symm _ _ hp2.1) (disj4_symm _ _ hp4.1) (disj4_symm _ _ hp5.1)
    · intro x hx
      have hx' : x ∈ Lp := List.mem_of_mem_erase hx
      constructor
      · exact hW x (disj4_symm _ _ (hp2.2 x hx').1) (disj4_symm _ _ (hp4.2 x hx').1)
          (disj4_symm _ _ (hp5.2 x hx').1)
      · exact hW (x + 4) (disj4_symm _ _ (hp2.2 x hx').2)
          (disj4_symm _ _ (hp4.2 x hx').2) (disj4_symm _ _ (hp5.2 x hx').2)
  have hwfn' : wfList (coalesce h bp).1 jn (Ln.erase (bp + s)) := by
    refine wfList_transport (del_list (del_list h (bp - sp)) (bp + s))
      (coalesce h bp).1 jn (Ln.erase (bp + s)) ?_ ?_ ?_ ?_ herase2
    · rw [hco]
      rfl
    · rw [hco]
      rfl
    · rw [hra2jn]
      exact hW _ (disj4_symm _ _ hn2.1) (disj4_symm _ _ hn4.1) (disj4_symm _ _ hn5.1)
    · intro x hx
      have hx' : x ∈ Ln := List.mem_of_mem_erase hx
      constructor
      · exact hW x (disj4_symm _ _ (hn2.2 x hx').1) (disj4_symm _ _ (hn4.2 x hx').1)
          (disj4_symm _ _ (hn5.2 x hx').1)
      · exact hW (x + 4) (disj4_symm _ _ (hn2.2 x hx').2)
          (disj4_symm _ _ (hn4.2 x hx').2) (disj4_symm _ _ (hn5.2 x hx').2)
  refine ⟨by rw [hco], ?_, ?_, ?_, ?_, ?_, hwfp'.1, hwfn'.1⟩
  · show GET (coalesce h bp).1 (bp - sp - 4) &&& 4294967288 = s + sp + sn
    rw [hga, packb_size _ BB hBB02 hss8 hlt]
  · show GET (coalesce h bp).1 (bp - sp - 4) &&& 1 = 0
    rw [hga, packb_alloc _ BB hBB02 hss8]
  · show GET (coalesce h bp).1 (bp - sp - 4) &&& 2 = GET h (bp - sp - 4) &&& 2
    rw [hga, packb_prev _ BB hBB02 hss8]
    exact hBBppa
  · show GET (coalesce h bp).1 (bp + s + sn - 8) = GET (coalesce h bp).1 (bp - sp - 4)
    rw [hgf, hga]
  · show GET (coalesce h bp).1 (bp + s + sn - 4) &&& 2 = 0
    rw [hco]
    dsimp only
    rw [GET_PUT_same, Nat.mod_eq_of_lt (lt_of_le_of_lt Nat.and_le_left (GET_lt _ _)),
      clear2_prev]

/-- Case 4 of coalesce when both free neighbors live in the same size
class: both are spliced out of that one class list. -/
theorem coalesce_case4_same (h : Heap) (bp s sn sp j : Nat) (L : List Nat)
    (hs : GET_SIZE h (HDRP bp) = s) (hs8 : s % 8 = 0) (hspos : 8 ≤ s) (hbp : 8 ≤ bp)
    (hpa : GET_PREV_ALLOC h (HDRP bp) = 0) (hna : GET_ALLOC h (HDRP (bp + s)) = 0)
    (hsn : GET_SIZE h (HDRP (bp + s)) = sn) (hsn8 : sn % 8 = 0) (hsnpos : 8 ≤ sn)
    (hfn : GET_SIZE h (bp + s + sn - 8) = sn)
    (hsp : GET_SIZE h (bp - 8) = sp) (hhp : GET_SIZE h (HDRP (bp - sp)) = sp)
    (hsp8 : sp % 8 = 0) (hsppos : 8 ≤ sp) (hspbp : sp + 8 ≤ bp)
    (hlt : s + sp + sn < 4294967296)
    (hwf : wfList h j L) (hpmem : bp - sp ∈ L) (hjp : get_list sp = j)
    (hnmem : bp + s ∈ L) (hjn : get_list sn = j)
    (aw0 : away h j L (bp - 8)) (aw1 : away h j L (bp - 4))
    (aw2 : away h j L (bp - sp - 4)) (aw3 : away h j L (bp + s - 4))
    (aw4 : away h j L (bp + s + sn - 8)) (aw5 : away h j L (bp + s + sn - 4)) :
    (coalesce h bp).2 = bp - sp ∧
    GET_SIZE (coalesce h bp).1 (HDRP (bp - sp)) = s + sp + sn ∧
    GET_ALLOC (coalesce h bp).1 (HDRP (bp - sp)) = 0 ∧
    GET_PREV_ALLOC (coalesce h bp).1 (HDRP (bp - sp)) =
      GET_PREV_ALLOC h (HDRP (bp - sp)) ∧
    GET (coalesce h bp).1 (bp + s + sn - 8) = GET (coalesce h bp).1 (HDRP (bp - sp)) ∧
    GET_PREV_ALLOC (coalesce h bp).1 (HDRP (bp + s + sn)) = 0 ∧
    chainFrom (coalesce h bp).1 (headPtr (coalesce h bp).1 j)
      ((L.erase (bp - sp)).erase (bp + s)) := by
  have hs' : GET_SIZE h (bp - 4) = s := hs
  have hpa' : GET_PREV_ALLOC h (bp - 4) = 0 := hpa
  have hna' : GET_ALLOC h (bp + s - 4) = 0 := hna
  have hsn' : GET_SIZE h (bp + s - 4) = sn := hsn
  have hhp' : GET_SIZE h (bp - sp - 4) = sp := hhp
  have hss8 : (s + sp + sn) % 8 = 0 := by omega
  obtain ⟨herase1, hframe1⟩ := del_list_erase h j L (bp - sp) hwf hpmem
    (by rw [hhp]; exact hjp)
  have hlp1 : (del_list h (bp - sp)).heap_listp = h.heap_listp :=
    del_list_heap_listp h (bp - sp)
  have hra1 : rootAddr (del_list h (bp - sp)) j = rootAddr h j :=
    rootAddr_congr h _ j hlp1
  have hnmem1 : bp + s ∈ L.erase (bp - sp) :=
    (List.mem_erase_of_ne (by omega)).mpr hnmem
  have f1n : GET (del_list h (bp - sp)) (bp + s - 4) = GET h (bp + s - 4) :=
    hframe1 _ aw3.1 aw3.2
  have hcls2 : get_list (GET_SIZE (del_list h (bp - sp)) (HDRP (bp + s))) = j := by
    unfold GET_SIZE HDRP
    rw [f1n]
    rw [show GET h (bp + s - 4) &&& 4294967288 = sn from hsn]
    exact hjn
  obtain ⟨herase2, hframe2⟩ :=
    del_list_erase (del_list h (bp - sp)) j (L.erase (bp - sp)) (bp + s)
      herase1 hnmem1 hcls2
  have hlp2 : (del_list (del_list h (bp - sp)) (bp + s)).heap_listp =
      (del_list h (bp - sp)).heap_listp := del_list_heap_listp _ (bp + s)
  have hra2 : rootAddr (del_list (del_list h (bp - sp)) (bp + s)) j =
      rootAddr h j := by
    rw [rootAddr_congr _ _ j hlp2, hra1]
  have hfr : ∀ a, disj4 a (rootAddr h j) → (∀ x ∈ L, disj4 a x ∧ disj4 a (x + 4)) →
      GET (del_list (del_list h (bp - sp)) (bp + s)) a = GET h a := by
    intro a d1 d2
    rw [hframe2 a (by rw [hra1]; exact d1)
      (fun x hx => d2 x (List.mem_of_mem_erase hx)), hframe1 a d1 d2]
  have fr0 : GET (del_list (del_list h (bp - sp)) (bp + s)) (bp - 8) = GET h (bp - 8) :=
    hfr _ aw0.1 aw0.2
  have fr1 : GET (del_list (del_list h (bp - sp)) (bp + s)) (bp - 4) = GET h (bp - 4) :=
    hfr _ aw1.1 aw1.2
  have fr2 : GET (del_list (del_list h (bp - sp)) (bp + s)) (bp - sp - 4) =
      GET h (bp - sp - 4) := hfr _ aw2.1 aw2.2
  have fr3 : GET (del_list (del_list h (bp - sp)) (bp + s)) (bp + s - 4) =
      GET h (bp + s - 4) := hfr _ aw3.1 aw3.2
  have fr4 : GET (del_list (del_list h (bp - sp)) (bp + s)) (bp + s + sn - 8) =
      GET h (bp + s + sn - 8) := hfr _ aw4.1 aw4.2
  have e1a : GET_SIZE (del_list h (bp - sp)) (bp - 4) = s := by
    unfold GET_SIZE
    rw [hframe1 _ aw1.1 aw1.2]
    exact hs'
  have g0 : GET_SIZE (del_list (del_list h (bp - sp)) (bp + s)) (bp - 8) = sp := by
    unfold GET_SIZE
    rw [fr0]
    exact hsp
  have g1 : GET_SIZE (del_list (del_list h (bp - sp)) (bp + s)) (bp - 4) = s := by
    unfold GET_SIZE
    rw [fr1]
    exact hs'
  have g2 : GET_SIZE (del_list (del_list h (bp - sp)) (bp + s)) (bp - sp - 4) = sp := by
    unfold GET_SIZE
    rw [fr2]
    exact hhp'
  have g3 : GET_SIZE (del_list (del_list h (bp - sp)) (bp + s)) (bp + s - 4) = sn := by
    unfold GET_SIZE
    rw [fr3]
    exact hsn'
  have g4 : GET_SIZE (del_list (del_list h (bp - sp)) (bp + s)) (bp + s + sn - 8)
      = sn := by
    unfold GET_SIZE
    rw [fr4]
    exact hfn
  have eA1 : GET_SIZE (PUT (del_list (del_list h (bp - sp)) (bp + s)) (bp - sp - 4)
      (PACK (s + sp + sn) 2)) (bp - 4) = s := by
    unfold GET_SIZE
    rw [GET_PUT_out _ _ _ _ (by omega)]
    exact g1
  have eA2 : GET_SIZE (PUT (del_list (del_list h (bp - sp)) (bp + s)) (bp - sp - 4)
      (PACK (s + sp + sn) 2)) (bp + s - 4) = sn := by
    unfold GET_SIZE
    rw [GET_PUT_out _ _ _ _ (by omega)]
    exact g3
  have eB1 : GET_SIZE (PUT (del_list (del_list h (bp - sp)) (bp + s)) (bp - sp - 4)
      (PACK (s + sp + sn) 0)) (bp - 4) = s := by
    unfold GET_SIZE
    rw [GET_PUT_out _ _ _ _ (by omega)]
    exact g1
  have eB2 : GET_SIZE (PUT (del_list (del_list h (bp - sp)) (bp + s)) (bp - sp - 4)
      (PACK (s + sp + sn) 0)) (bp + s - 4) = sn := by
    unfold GET_SIZE
    rw [GET_PUT_out _ _ _ _ (by omega)]
    exact g3
  set BB := if GET_PREV_ALLOC (del_list (del_list h (bp - sp)) (bp + s))
      (bp - sp - 4) ≠ 0 then (2 : Nat) else 0 with hBB
  have hBB02 : BB = 0 ∨ BB = 2 := by
    rw [hBB]
    split <;> simp
  have hlt2 : PACK (s + sp + sn) BB < 4294967296 := packb_lt _ BB hBB02 hlt
  have eppa : GET_PREV_ALLOC (del_list (del_list h (bp - sp)) (bp + s))
      (bp - sp - 4) = GET h (bp - sp - 4) &&& 2 := by
    unfold GET_PREV_ALLOC
    rw [fr2]
  have hBBppa : BB = GET h (bp - sp - 4) &&& 2 := by
    rcases and2_cases (GET h (bp - sp - 4)) with h0 | h2
    · rw [hBB, if_neg (by rw [eppa, h0]; simp), h0]
    · rw [hBB, if_pos (by rw [eppa, h2]; norm_num), h2]
  have eC : GET_SIZE (PUT (PUT (del_list (del_list h (bp - sp)) (bp + s))
      (bp - sp - 4) (PACK (s + sp + sn) BB)) (bp + s + sn - 8)
      (PACK (s + sp + sn) BB)) (bp - 8) = sp := by
    unfold GET_SIZE
    rw [GET_PUT_out _ _ _ _ (by omega), GET_PUT_out _ _ _ _ (by omega), fr0]
    exact hsp
  have eD : GET_SIZE (PUT (PUT (del_list (del_list h (bp - sp)) (bp + s))
      (bp - sp - 4) (PACK (s + sp + sn) BB)) (bp + s + sn - 8)
      (PACK (s + sp + sn) BB)) (bp - sp - 4) = s + sp + sn := by
    unfold GET_SIZE
    rw [GET_PUT_out _ _ _ _ (by omega), GET_PUT_same, Nat.mod_eq_of_lt hlt2,
      packb_size _ BB hBB02 hss8 hlt]
  have hco : coalesce h bp =
      (PUT (PUT (PUT (del_list (del_list h (bp - sp)) (bp + s)) (bp - sp - 4)
          (PACK (s + sp + sn) BB)) (bp + s + sn - 8) (PACK (s + sp + sn) BB))
        (bp + s + sn - 4)
        (GET (PUT (PUT (del_list (del_list h (bp - sp)) (bp + s)) (bp - sp - 4)
            (PACK (s + sp + sn) BB)) (bp + s + sn - 8) (PACK (s + sp + sn) BB))
          (bp + s + sn - 4) &&& 4294967293),
        bp - sp) := by
    unfold coalesce NEXT_BLKP FTRP HDRP PREV_BLKP
    dsimp only
    rw [hs', hsp]
    rw [if_neg (by simp [hpa']), if_neg (by simp [hpa']), if_neg (by simp [hna'])]
    dsimp only
    rw [e1a]
    rw [g0, g2, g1, g3, g4]
    rw [eA1, eA2, eB1, eB2]
    rw [← apply_ite (fun v => PUT (PUT (del_list (del_list h (bp - sp)) (bp + s))
      (bp - sp - 4) (PACK (s + sp + sn) v)) (bp + s + sn - 8) (PACK (s + sp + sn) v))]
    rw [← hBB]
    rw [eC, eD]
    rw [show bp - sp + (s + sp + sn) - 4 = bp + s + sn - 4 from by omega]
  have hga : GET (coalesce h bp).1 (bp - sp - 4) = PACK (s + sp + sn) BB := by
    rw [hco]
    dsimp only
    rw [GET_PUT_out _ _ _ _ (by omega), GET_PUT_out _ _ _ _ (by omega), GET_PUT_same,
      Nat.mod_eq_of_lt hlt2]
  have hgf : GET (coalesce h bp).1 (bp + s + sn - 8) = PACK (s + sp + sn) BB := by
    rw [hco]
    dsimp only
    rw [GET_PUT_out _ _ _ _ (by omega), GET_PUT_same, Nat.mod_eq_of_lt hlt2]
  have hW : ∀ a, disj4 a (bp - sp - 4) → disj4 a (bp + s + sn - 8) →
      disj4 a (bp + s + sn - 4) →
      GET (coalesce h bp).1 a = GET (del_list (del_list h (bp - sp)) (bp + s)) a := by
    intro a d1 d2 d3
    rw [hco]
    dsimp only
    rw [GET_PUT_out _ _ _ _ d3, GET_PUT_out _ _ _ _ d2, GET_PUT_out _ _ _ _ d1]
  have hwf' : wfList (coalesce h bp).1 j ((L.erase (bp - sp)).erase (bp + s)) := by
    refine wfList_transport (del_list (del_list h (bp - sp)) (bp + s))
      (coalesce h bp).1 j ((L.erase (bp - sp)).erase (bp + s)) ?_ ?_ ?_ ?_ herase2
    · rw [hco]
      rfl
    · rw [hco]
      rfl
    · rw [hra2]
      exact hW _ (disj4_symm _ _ aw2.1) (disj4_symm _ _ aw4.1) (disj4_symm _ _ aw5.1)
    · intro x hx
      have hx' : x ∈ L :=
        List.mem_of_mem_erase (List.mem_of_mem_erase hx)
      constructor
      · exact hW x (disj4_symm _ _ (aw2.2 x hx').1) (disj4_symm _ _ (aw4.2 x hx').1)
          (disj4_symm _ _ (aw5.2 x hx').1)
      · exact hW (x + 4) (disj4_symm _ _ (aw2.2 x hx').2)
          (disj4_symm _ _ (aw4.2 x hx').2) (disj4_symm _ _ (aw5.2 x hx').2)
  refine ⟨by rw [hco], ?_, ?_, ?_, ?_, ?_, hwf'.1⟩
  · show GET (coalesce h bp).1 (bp - sp - 4) &&& 4294967288 = s + sp + sn
    rw [hga, packb_size _ BB hBB02 hss8 hlt]
  · show GET (coalesce h bp).1 (bp - sp - 4) &&& 1 = 0
    rw [hga, packb_alloc _ BB hBB02 hss8]
  · show GET (coalesce h bp).1 (bp - sp - 4) &&& 2 = GET h (bp - sp - 4) &&& 2
    rw [hga, packb_prev _ BB hBB02 hss8]
    exact hBBppa
  · show GET (coalesce h bp).1 (bp + s + sn - 8) = GET (coalesce h bp).1 (bp - sp - 4)
    rw [hgf, hga]
  · show GET (coalesce h bp).1 (bp + s + sn - 4) &&& 2 = 0
    rw [hco]
    dsimp only
    rw [GET_PUT_same, Nat.mod_eq_of_lt (lt_of_le_of_lt Nat.and_le_left (GET_lt _ _)),
      clear2_prev]

/-- C4: coalesce(bp), applied to a free block bp, follows the four-case
table: with both physical neighbors allocated it merges nothing and returns
bp; with only the next neighbor free it removes the next block from its
free list, grows bp over it and returns bp; with only the previous
neighbor free it removes the previous block, grows it over bp and returns
it; with both free it removes both (their classes taken distinct) and
returns the previous block grown over all three.  In every case the merged
block has an allocated=0 header and an identical footer whose prev_alloc
bit is inherited from the left-most constituent, and the prev_alloc bit of
the block physically following the merged region is cleared to 0.  The
per-case antecedents pin down the neighbor sizes, identify the free lists
the neighbors live on, and keep the link splicing away from the rewritten
boundary words. -/
theorem c4_coalesce (h : Heap) (bp s : Nat)
    (hs : GET_SIZE h (HDRP bp) = s) (hs8 : s % 8 = 0) (hspos : 8 ≤ s)
    (hbp : 8 ≤ bp) :
    (GET_PREV_ALLOC h (HDRP bp) ≠ 0 → GET_ALLOC h (HDRP (bp + s)) ≠ 0 →
      (coalesce h bp).2 = bp ∧
      GET_SIZE (coalesce h bp).1 (HDRP bp) = s ∧
      GET_ALLOC (coalesce h bp).1 (HDRP bp) = 0 ∧
      GET_PREV_ALLOC (coalesce h bp).1 (HDRP bp) = GET_PREV_ALLOC h (HDRP bp) ∧
      GET (coalesce h bp).1 (bp + s - 8) = GET (coalesce h bp).1 (HDRP bp) ∧
      GET_PREV_ALLOC (coalesce h bp).1 (HDRP (bp + s)) = 0) ∧
    (GET_PREV_ALLOC h (HDRP bp) ≠ 0 → GET_ALLOC h (HDRP (bp + s)) = 0 →
      ∀ sn jn Ln, GET_SIZE h (HDRP (bp + s)) = sn → sn % 8 = 0 → 8 ≤ sn →
        s + sn < 4294967296 →
        wfList h jn Ln → bp + s ∈ Ln → get_list sn = jn →
        away h jn Ln (bp - 4) → away h jn Ln (bp + s - 4) →
        away h jn Ln (bp + s + sn - 8) → away h jn Ln (bp + s + sn - 4) →
        (coalesce h bp).2 = bp ∧
        GET_SIZE (coalesce h bp).1 (HDRP bp) = s + sn ∧
        GET_ALLOC (coalesce h bp).1 (HDRP bp) = 0 ∧
        GET_PREV_ALLOC (coalesce h bp).1 (HDRP bp) = GET_PREV_ALLOC h (HDRP bp) ∧
        GET (coalesce h bp).1 (bp + s + sn - 8) = GET (coalesce h bp).1 (HDRP bp) ∧
        GET_PREV_ALLOC (coalesce h bp).1 (HDRP (bp + s + sn)) = 0 ∧
        chainFrom (coalesce h bp).1 (headPtr (coalesce h bp).1 jn)
          (Ln.erase (bp + s))) ∧
    (GET_PREV_ALLOC h (HDRP bp) = 0 → GET_ALLOC h (HDRP (bp + s)) ≠ 0 →
      ∀ sp jp Lp, GET_SIZE h (bp - 8) = sp → GET_SIZE h (HDRP (bp - sp)) = sp →
        sp % 8 = 0 → 8 ≤ sp → sp + 8 ≤ bp → s + sp < 4294967296 →
        wfList h jp Lp → bp - sp ∈ Lp → get_list sp = jp →
        away h jp Lp (bp - 8) → away h jp Lp (bp - 4) →
        away h jp Lp (bp - sp - 4) → away h jp Lp (bp + s - 8) →
        away h jp Lp (bp + s - 4) →
        (coalesce h bp).2 = bp - sp ∧
        GET_SIZE (coalesce h bp).1 (HDRP (bp - sp)) = s + sp ∧
        GET_ALLOC (coalesce h bp).1 (HDRP (bp - sp)) = 0 ∧
        GET_PREV_ALLOC (coalesce h bp).1 (HDRP (bp - sp)) =
          GET_PREV_ALLOC h (HDRP (bp - sp)) ∧
        GET (coalesce h bp).1 (bp + s - 8) = GET (coalesce h bp).1 (HDRP (bp - sp)) ∧
        GET_PREV_ALLOC (coalesce h bp).1 (HDRP (bp + s)) = 0 ∧
        chainFrom (coalesce h bp).1 (headPtr (coalesce h bp).1 jp)
          (Lp.erase (bp - sp))) ∧
    (GET_PREV_ALLOC h (HDRP bp) = 0 → GET_ALLOC h (HDRP (bp + s)) = 0 →
      ∀ sn sp jn jp Ln Lp,
        GET_SIZE h (HDRP (bp + s)) = sn → sn % 8 = 0 → 8 ≤ sn →
        GET_SIZE h (bp + s + sn - 8) = sn →
        GET_SIZE h (bp - 8) = sp → GET_SIZE h (HDRP (bp - sp)) = sp →
        sp % 8 = 0 → 8 ≤ sp → sp + 8 ≤ bp → s + sp + sn < 4294967296 →
        wfList h jp Lp → bp - sp ∈ Lp → get_list sp = jp →
        wfList h jn Ln → bp + s ∈ Ln → get_list sn = jn →
        jp ≠ jn →
        (∀ x ∈ Ln, rootAddr h jp + 4 ≤ x ∨ x + 8 ≤ rootAddr h jp) →
        (∀ x ∈ Lp, rootAddr h jn + 4 ≤ x ∨ x + 8 ≤ rootAddr h jn) →
        (∀ x ∈ Ln, ∀ y ∈ Lp, sep8 x y) →
        away h jp Lp (bp - 8) → away h jp Lp (bp - 4) →
        away h jp Lp (bp - sp - 4) → away h jp Lp (bp + s - 4) →
        away h jp Lp (bp + s + sn - 8) → away h jp Lp (bp + s + sn - 4) →
        away h jn Ln (bp - 8) → away h jn Ln (bp - 4) →
        away h jn Ln (bp - sp - 4) → away h jn Ln (bp + s - 4) →
        away h jn Ln (bp + s + sn - 8) → away h jn Ln (bp + s + sn - 4) →
        (coalesce h bp).2 = bp - sp ∧
        GET_SIZE (coalesce h bp).1 (HDRP (bp - sp)) = s + sp + sn ∧
        GET_ALLOC (coalesce h bp).1 (HDRP (bp - sp)) = 0 ∧
        GET_PREV_ALLOC (coalesce h bp).1 (HDRP (bp - sp)) =
          GET_PREV_ALLOC h (HDRP (bp - sp)) ∧
        GET (coalesce h bp).1 (bp + s + sn - 8) =
          GET (coalesce h bp).1 (HDRP (bp - sp)) ∧
        GET_PREV_ALLOC (coalesce h bp).1 (HDRP (bp + s + sn)) = 0 ∧
        chainFrom (coalesce h bp).1 (headPtr (coalesce h bp).1 jp)
          (Lp.erase (bp - sp)) ∧
        chainFrom (coalesce h bp).1 (headPtr (coalesce h bp).1 jn)
          (Ln.erase (bp + s))) ∧
    (GET_PREV_ALLOC h (HDRP bp) = 0 → GET_ALLOC h (HDRP (bp + s)) = 0 →
      ∀ sn sp j L,
        GET_SIZE h (HDRP (bp + s)) = sn → sn % 8 = 0 → 8 ≤ sn →
        GET_SIZE h (bp + s + sn - 8) = sn →
        GET_SIZE h (bp - 8) = sp → GET_SIZE h (HDRP (bp - sp)) = sp →
        sp % 8 = 0 → 8 ≤ sp → sp + 8 ≤ bp → s + sp + sn < 4294967296 →
        wfList h j L → bp - sp ∈ L → get_list sp = j →
        bp + s ∈ L → get_list sn = j →
        away h j L (bp - 8) → away h j L (bp - 4) →
        away h j L (bp - sp - 4) → away h j L (bp + s - 4) →
        away h j L (bp + s + sn - 8) → away h j L (bp + s + sn - 4) →
        (coalesce h bp).2 = bp - sp ∧
        GET_SIZE (coalesce h bp).1 (HDRP (bp - sp)) = s + sp + sn ∧
        GET_ALLOC (coalesce h bp).1 (HDRP (bp - sp)) = 0 ∧
        GET_PREV_ALLOC (coalesce h bp).1 (HDRP (bp - sp)) =
          GET_PREV_ALLOC h (HDRP (bp - sp)) ∧
        GET (coalesce h bp).1 (bp + s + sn - 8) =
          GET (coalesce h bp).1 (HDRP (bp - sp)) ∧
        GET_PREV_ALLOC (coalesce h bp).1 (HDRP (bp + s + sn)) = 0 ∧
        chainFrom (coalesce h bp).1 (headPtr (coalesce h bp).1 j)
          ((L.erase (bp - sp)).erase (bp + s))) := by
  refine ⟨?_, ?_, ?_, ?_, ?_⟩
  · intro hpa hna
    exact coalesce_case1 h bp s hs hs8 hspos hbp hpa hna
  · intro hpa hna sn jn Ln hsn hsn8 hsnpos hlt hwf hmem hjn a1 a2 a3 a4
    exact coalesce_case2 h bp s sn jn Ln hs hs8 hspos hbp hpa hna hsn hsn8 hsnpos
      hlt hwf hmem hjn a1 a2 a3 a4
  · intro hpa hna sp jp Lp hsp hhp hsp8 hsppos hspbp hlt hwf hmem hjp a0 a1 a2 a3 a4
    exact coalesce_case3 h bp s sp jp Lp hs hs8 hspos hbp hpa hna hsp hhp hsp8
      hsppos hspbp hlt hwf hmem hjp a0 a1 a2 a3 a4
  · intro hpa hna sn sp jn jp Ln Lp hsn hsn8 hsnpos hfn hsp hhp hsp8 hsppos hspbp
      hlt hwfp hpmem hjp hwfn hnmem hjn hnejj hLnjp hLpjn hcross
      p0 p1 p2 p3 p4 p5 n0 n1 n2 n3 n4 n5
    exact coalesce_case4 h bp s sn sp jn jp Ln Lp hs hs8 hspos hbp hpa hna hsn hsn8
      hsnpos hfn hsp hhp hsp8 hsppos hspbp hlt hwfp hpmem hjp hwfn hnmem hjn hnejj
      hLnjp hLpjn hcross p0 p1 p2 p3 p4 p5 n0 n1 n2 n3 n4 n5
  · intro hpa hna sn sp j L hsn hsn8 hsnpos hfn hsp hhp hsp8 hsppos hspbp hlt
      hwf hpmem hjp hnmem hjn a0 a1 a2 a3 a4 a5
    exact coalesce_case4_same h bp s sn sp j L hs hs8 hspos hbp hpa hna hsn hsn8
      hsnpos hfn hsp hhp hsp8 hsppos hspbp hlt hwf hpmem hjp hnmem hjn
      a0 a1 a2 a3 a4 a5

/-- Witness for C4 at the concrete heap c4Heap: freeing the 16-byte block
at 104 whose next neighbor 120 (size 24, alone in class 1) is free
exercises case 2: 120 is spliced out of class 1 (its chain becomes empty),
the merged 40-byte free block keeps header = footer with prev_alloc
inherited, and the epilogue header at 140 loses its prev_alloc bit. -/
theorem c4_coalesce_witness :
    (coalesce c4Heap 104).2 = 104 ∧
    GET_SIZE (coalesce c4Heap 104).1 (HDRP 104) = 16 + 24 ∧
    GET_ALLOC (coalesce c4Heap 104).1 (HDRP 104) = 0 ∧
    GET_PREV_ALLOC (coalesce c4Heap 104).1 (HDRP 104) =
      GET_PREV_ALLOC c4Heap (HDRP 104) ∧
    GET (coalesce c4Heap 104).1 (104 + 16 + 24 - 8) =
      GET (coalesce c4Heap 104).1 (HDRP 104) ∧
    GET_PREV_ALLOC (coalesce c4Heap 104).1 (HDRP (104 + 16 + 24)) = 0 ∧
    chainFrom (coalesce c4Heap 104).1 (headPtr (coalesce c4Heap 104).1 1)
      ([120].erase (104 + 16)) :=
  (c4_coalesce c4Heap 104 16 (by decide) (by decide) (by decide) (by decide)).2.1
    (by decide) (by decide) 24 1 [120] (by decide) (by decide) (by decide)
    (by decide) (by decide) (by decide) (by decide) (by decide) (by decide)
    (by decide) (by decide)

end Malloc
